import Mathlib

/-!
Shallow embedding of time-cli (src/main.rs), a command-line timestamp parser
built on chrono 0.4 and clap 2.  The program's own functions (`parse_i64`,
`parse_f64`, `parse_dt_str`, `parse`, `main`) are translated line by line into
executable Lean functions.  Behavior of the external chrono library at the
call sites the program uses is modelled from chrono 0.4's source and
documentation (scanning, `Parsed`, calendar conversion, RFC 2822/3339
parsing and formatting).  Machine integers are modelled as `Int`/`Nat` with
explicit bound checks where the source relies on them; `f64` parsing is
modelled with exact rationals (noted at the definition).
-/

namespace TimeCli

/-- `LOWER_BOUND` from main.rs line 10: 1900-01-01T00:00:00Z in epoch seconds. -/
def LOWER_BOUND : Int := -2208988800

/-- `UPPER_BOUND` from main.rs line 12: 2500-01-01T00:00:00Z in epoch seconds. -/
def UPPER_BOUND : Int := 16725225600

def i64Min : Int := -9223372036854775808

def i64Max : Int := 9223372036854775807

/-- Rust `as u32` cast of an `i64`: the value modulo 2^32. -/
def toU32 (i : Int) : Nat := (i.emod 4294967296).toNat

/-- Model of chrono `DateTime<Utc>` in chrono's normalized storage form:
`secs` is the value of `timestamp()` (whole seconds since the epoch of the
stored calendar second) and `nsecs` the stored subsecond nanoseconds; values
of `nsecs` in `[1000000000, 2000000000)` encode leap seconds, as in chrono. -/
structure DT where
  secs : Int
  nsecs : Nat
deriving DecidableEq, Repr

/-- chrono's `Ord` on `DateTime<Utc>`: lexicographic on the stored
(calendar second, subsecond nanoseconds) pair. -/
def DT.lt (a b : DT) : Prop :=
  a.secs < b.secs ∨ (a.secs = b.secs ∧ a.nsecs < b.nsecs)

instance : LT DT := ⟨DT.lt⟩

instance (a b : DT) : Decidable (a < b) :=
  inferInstanceAs (Decidable (a.secs < b.secs ∨ (a.secs = b.secs ∧ a.nsecs < b.nsecs)))

/-- chrono `timestamp_millis()`: seconds times 1000 plus whole subsecond
milliseconds. -/
def DT.timestampMillis (dt : DT) : Int := dt.secs * 1000 + (dt.nsecs / 1000000 : Nat)

/-- Outcome of running a Rust expression that returns
`Result<DateTime<Utc>, ()>` but may also panic (abort the process):
`crash` models a panic, `fail` models `Err(())`, `ok` models `Ok`. -/
inductive PResult where
  | crash : PResult
  | fail : PResult
  | ok : DT → PResult
deriving DecidableEq, Repr

/-! ## Proleptic Gregorian calendar (model of chrono's internals) -/

/-- Gregorian leap-year rule, as in chrono (`YearFlags::from_year`). -/
def isLeapYear (y : Int) : Bool :=
  y.emod 4 == 0 && (y.emod 100 != 0 || y.emod 400 == 0)

/-- Days in the months before month `m` (1-based) of a non-leap/leap year;
model of the month tables behind chrono's ordinal/month-day conversions. -/
def cumMonthDays (leap : Bool) (m : Nat) : Nat :=
  let base : Nat :=
    match m with
    | 1 => 0 | 2 => 31 | 3 => 59 | 4 => 90 | 5 => 120 | 6 => 151
    | 7 => 181 | 8 => 212 | 9 => 243 | 10 => 273 | 11 => 304 | 12 => 334
    | _ => 365
  if leap && m ≥ 3 then base + 1 else base

/-- Number of days of month `m` (1-based). -/
def monthLen (leap : Bool) (m : Nat) : Nat := cumMonthDays leap (m + 1) - cumMonthDays leap m

/-- Month of a 1-based ordinal day-of-year. -/
def monthOfOrd (leap : Bool) (ord : Nat) : Nat :=
  if ord ≤ cumMonthDays leap 2 then 1
  else if ord ≤ cumMonthDays leap 3 then 2
  else if ord ≤ cumMonthDays leap 4 then 3
  else if ord ≤ cumMonthDays leap 5 then 4
  else if ord ≤ cumMonthDays leap 6 then 5
  else if ord ≤ cumMonthDays leap 7 then 6
  else if ord ≤ cumMonthDays leap 8 then 7
  else if ord ≤ cumMonthDays leap 9 then 8
  else if ord ≤ cumMonthDays leap 10 then 9
  else if ord ≤ cumMonthDays leap 11 then 10
  else if ord ≤ cumMonthDays leap 12 then 11
  else 12

/-- (month, day) of a 1-based ordinal day-of-year (model of chrono's
`Datelike::month`/`day` on a date stored as year + ordinal). -/
def ordToMd (leap : Bool) (ord : Nat) : Nat × Nat :=
  let m := monthOfOrd leap ord
  (m, ord - cumMonthDays leap m)

/-- Model of chrono `Datelike::num_days_from_ce` for a date given by year and
1-based ordinal day-of-year: the proleptic Gregorian day number with
0001-01-01 as day 1.  Negative years are first normalized by whole 400-year
cycles, exactly as in chrono 0.4. -/
def daysFromCE (y : Int) (ord : Nat) : Int :=
  let year := y - 1
  let excess : Int := if year < 0 then 1 + (-year).tdiv 400 else 0
  let base : Int := -(excess * 146097)
  let year2 := year + excess * 400
  base + (year2 * 1461).tdiv 4 - year2.tdiv 100 + year2.tdiv 400 + (ord : Int)

/-- Generator of chrono's `YEAR_DELTAS` table: number of leap years among the
years `[0, y)` of a 400-year cycle. -/
def yearDeltas (y : Nat) : Nat := (y + 3) / 4 - (y + 99) / 100 + (y + 399) / 400

/-- Model of chrono `internals::cycle_to_yo`: position in a 400-year cycle to
(year-in-cycle, 1-based ordinal day-of-year). -/
def cycleToYo (cycle : Nat) : Nat × Nat :=
  let y := cycle / 365
  let o := cycle % 365
  if o < yearDeltas y then (y - 1, o + 366 - yearDeltas (y - 1))
  else (y, o - yearDeltas y + 1)

/-- Model of chrono `NaiveDate::from_num_days_from_ce_opt` composed with the
extraction of (year, ordinal): proleptic Gregorian day number (0001-01-01 is
day 1) to year and 1-based day-of-year, failing outside chrono's year range
[-262144, 262143]. -/
def fromNumDays (days : Int) : Option (Int × Nat) :=
  let n := days + 365
  let p := cycleToYo (n.fmod 146097).toNat
  let year := n.fdiv 146097 * 400 + (p.1 : Int)
  if year < -262144 ∨ 262143 < year then none else some (year, p.2)

/-- Model of chrono `NaiveDateTime::from_timestamp_opt`: valid iff the
subsecond nanosecond argument is below 2*10^9 and the seconds value falls in
chrono's representable year range.  chrono's `from_timestamp` (used by
main.rs) panics exactly when this returns `none`. -/
def from_timestamp_opt (secs : Int) (nsecs : Nat) : Option DT :=
  if nsecs < 2000000000 ∧ (fromNumDays (secs.fdiv 86400 + 719163)).isSome
  then some ⟨secs, nsecs⟩ else none

/-- Lift the result of a chrono call that panics on `none` into `PResult`. -/
def liftPanic : Option DT → PResult
  | none => .crash
  | some dt => .ok dt

/-- Weekday index (Monday = 0) of a date given as a day number from CE,
matching chrono's `Weekday` numbering (0001-01-01 was a Monday). -/
def weekdayOfDays (days : Int) : Nat := ((days - 1).emod 7).toNat

/-! ## Scanning (model of chrono `format::scan` and Rust string parsing) -/

def isDigitCh (c : Char) : Bool := 48 ≤ c.toNat && c.toNat ≤ 57

def digitVal (c : Char) : Nat := c.toNat - 48

/-- ASCII whitespace, for chrono's `trim_left` before numeric items (the
strings this program handles are ASCII; other Unicode whitespace is not
modelled). -/
def isWsCh (c : Char) : Bool := c = ' ' || c = '\t' || c = '\n' || c = '\r'

def trimLeft (s : List Char) : List Char := s.dropWhile isWsCh

def natOfDigits (ds : List Char) : Nat := ds.foldl (fun a c => a * 10 + digitVal c) 0

/-- Model of chrono `scan::number(s, min, max)`: consume at least `min` and
at most `max` leading ASCII digits; error on fewer than `min` digits or on
`i64` overflow of the value. -/
def scanNumber (mn mx : Nat) (s : List Char) : Option (Int × List Char) :=
  let digs := (s.take mx).takeWhile isDigitCh
  if digs.length < mn then none
  else if (natOfDigits digs : Int) > i64Max then none
  else some ((natOfDigits digs : Int), s.drop digs.length)

/-- Model of chrono `scan::char`. -/
def scanChar (c : Char) (s : List Char) : Option (List Char) :=
  match s with
  | [] => none
  | c2 :: rest => if c2 = c then some rest else none

/-- Model of chrono `scan::space`: at least one whitespace character, then
all following whitespace is consumed. -/
def scanSpace (s : List Char) : Option (List Char) :=
  match s with
  | [] => none
  | c :: rest => if isWsCh c then some (trimLeft rest) else none

/-! ## chrono `format::Parsed` -/

/-- Model of chrono `format::Parsed` (the fields this program exercises). -/
structure Parsed where
  year : Option Int := none
  month : Option Nat := none
  day : Option Nat := none
  hourDiv12 : Option Nat := none
  hourMod12 : Option Nat := none
  minute : Option Nat := none
  second : Option Nat := none
  nanosecond : Option Nat := none
  offset : Option Int := none
  weekday : Option Nat := none
deriving DecidableEq, Repr

/-- Shared logic of the `Parsed` setters: a field may be set twice only to
the same value (chrono's `set_if_consistent`). -/
def mergeField (cur : Option Nat) (v : Nat) : Option (Option Nat) :=
  match cur with
  | none => some (some v)
  | some w => if w = v then some cur else none

/-- `Parsed::set_year`: value must fit in `i32`. -/
def Parsed.setYear (p : Parsed) (v : Int) : Option Parsed :=
  if v < -2147483648 ∨ 2147483647 < v then none
  else match p.year with
    | none => some { p with year := some v }
    | some w => if w = v then some p else none

/-- `Parsed::set_month` (stored as `u32`; calendar validity is checked later
in `to_naive_date`, as in chrono). -/
def Parsed.setMonth (p : Parsed) (v : Int) : Option Parsed :=
  if v < 0 ∨ 4294967295 < v then none
  else (mergeField p.month v.toNat).map (fun f => { p with month := f })

/-- `Parsed::set_day`. -/
def Parsed.setDay (p : Parsed) (v : Int) : Option Parsed :=
  if v < 0 ∨ 4294967295 < v then none
  else (mergeField p.day v.toNat).map (fun f => { p with day := f })

/-- `Parsed::set_hour`: splits the hour into `hour_div_12`/`hour_mod_12`. -/
def Parsed.setHour (p : Parsed) (v : Int) : Option Parsed :=
  if v < 0 ∨ 4294967295 < v then none
  else match mergeField p.hourDiv12 (v.toNat / 12) with
    | none => none
    | some hd =>
      (mergeField p.hourMod12 (v.toNat % 12)).map
        (fun hm => { p with hourDiv12 := hd, hourMod12 := hm })

/-- `Parsed::set_minute`. -/
def Parsed.setMinute (p : Parsed) (v : Int) : Option Parsed :=
  if v < 0 ∨ 4294967295 < v then none
  else (mergeField p.minute v.toNat).map (fun f => { p with minute := f })

/-- `Parsed::set_second`. -/
def Parsed.setSecond (p : Parsed) (v : Int) : Option Parsed :=
  if v < 0 ∨ 4294967295 < v then none
  else (mergeField p.second v.toNat).map (fun f => { p with second := f })

/-- `Parsed::set_nanosecond`. -/
def Parsed.setNanosecond (p : Parsed) (v : Int) : Option Parsed :=
  if v < 0 ∨ 4294967295 < v then none
  else (mergeField p.nanosecond v.toNat).map (fun f => { p with nanosecond := f })

/-- `Parsed::set_offset`: value must fit in `i32`. -/
def Parsed.setOffset (p : Parsed) (v : Int) : Option Parsed :=
  if v < -2147483648 ∨ 2147483647 < v then none
  else match p.offset with
    | none => some { p with offset := some v }
    | some w => if w = v then some p else none

/-- `Parsed::set_weekday` (weekday as Monday = 0). -/
def Parsed.setWeekday (p : Parsed) (v : Nat) : Option Parsed :=
  (mergeField p.weekday v).map (fun f => { p with weekday := f })

/-- `Parsed::to_naive_date` for the field combination this program produces
(year + month + day): validates chrono's year range and the calendar, and
checks a parsed weekday for consistency; returns year and 1-based ordinal
day-of-year (chrono's internal date representation). -/
def Parsed.toNaiveDate (p : Parsed) : Option (Int × Nat) :=
  match p.year, p.month, p.day with
  | some y, some m, some d =>
    if y < -262144 ∨ 262143 < y then none
    else if m < 1 ∨ 12 < m then none
    else if d < 1 ∨ monthLen (isLeapYear y) m < d then none
    else
      let ord := cumMonthDays (isLeapYear y) m + d
      match p.weekday with
      | none => some (y, ord)
      | some w => if w = weekdayOfDays (daysFromCE y ord) then some (y, ord) else none
  | _, _, _ => none

/-- `Parsed::to_naive_time`: hour and minute are required, a missing second
defaults to 0, and second 60 is stored as second 59 with the nanosecond
field raised by 10^9 (chrono's leap-second representation).  Returns
(seconds of day, stored subsecond nanoseconds). -/
def Parsed.toNaiveTime (p : Parsed) : Option (Nat × Nat) :=
  match p.hourDiv12, p.hourMod12, p.minute with
  | some hd, some hm, some mi =>
    let hour := hd * 12 + hm
    let sn : Nat × Nat :=
      match p.second with
      | some sec => (sec, p.nanosecond.getD 0)
      | none => (0, 0)
    let sn2 := if sn.1 = 60 then (59, sn.2 + 1000000000) else sn
    if hour < 24 ∧ sn2.1 < 60 ∧ mi < 60 ∧ sn2.2 < 2000000000 then
      some (hour * 3600 + mi * 60 + sn2.1, sn2.2)
    else none
  | _, _, _ => none

/-- Epoch seconds of a UTC calendar datetime given as year, 1-based ordinal
day-of-year and seconds of day (719163 is the CE day number of 1970-01-01). -/
def naiveSecs (y : Int) (ord : Nat) (sod : Nat) : Int :=
  (daysFromCE y ord - 719163) * 86400 + (sod : Int)

/-! ## strftime items and `format::parse` -/

/-- The strftime items occurring in the seven format strings of main.rs:
`%Y %m %d %H %M %S` and literal characters. -/
inductive FItem where
  | year | month | day | hour | minute | second
  | lit : Char → FItem
deriving DecidableEq, Repr

/-- One step of chrono `format::parse_internal`: leading whitespace is
trimmed before a numeric item; `%Y` is signed (unbounded digits after an
explicit sign, at most 4 without one); the other numerics are unsigned with
at most 2 digits; a literal must match exactly. -/
def runItem (p : Parsed) (it : FItem) (s : List Char) : Option (Parsed × List Char) :=
  let num (set : Parsed → Int → Option Parsed) (signed : Bool) (width : Nat) :
      Option (Parsed × List Char) :=
    let s := trimLeft s
    let scanned : Option (Int × List Char) :=
      match s with
      | [] => none
      | c :: rest =>
        if signed && c = '-' then (scanNumber 1 rest.length rest).map (fun r => (-r.1, r.2))
        else if signed && c = '+' then scanNumber 1 rest.length rest
        else scanNumber 1 width (c :: rest)
    match scanned with
    | none => none
    | some (v, rest) => (set p v).map (fun p2 => (p2, rest))
  match it with
  | .year => num Parsed.setYear true 4
  | .month => num Parsed.setMonth false 2
  | .day => num Parsed.setDay false 2
  | .hour => num Parsed.setHour false 2
  | .minute => num Parsed.setMinute false 2
  | .second => num Parsed.setSecond false 2
  | .lit c =>
    match s with
    | [] => none
    | c2 :: rest => if c2 = c then some (p, rest) else none

def runItems (p : Parsed) : List FItem → List Char → Option (Parsed × List Char)
  | [], s => some (p, s)
  | it :: its, s =>
    match runItem p it s with
    | none => none
    | some (p2, s2) => runItems p2 its s2

/-- chrono `format::parse` over strftime items: run all items and reject
trailing input (TOO_LONG). -/
def formatParse (items : List FItem) (s : List Char) : Option Parsed :=
  match runItems {} items s with
  | some (p, []) => some p
  | _ => none

/-! ## main.rs `parse_dt_str` (lines 45-73) -/

/-- The defaulting block of `parse_dt_str` (main.rs lines 49-60): absent
hour, minute, day, month are filled with 0, 0, 1, 1.  (The source uses
`set_hour(0).unwrap()` etc.; in every flow reachable from main.rs the fields
being defaulted are unset, so the setters cannot fail there.) -/
def applyDefaults (p : Parsed) : Parsed :=
  let p := if p.hourMod12.isNone then { p with hourDiv12 := some 0, hourMod12 := some 0 } else p
  let p := if p.minute.isNone then { p with minute := some 0 } else p
  let p := if p.day.isNone then { p with day := some 1 } else p
  if p.month.isNone then { p with month := some 1 } else p

/-- main.rs `parse_dt_str(fmt)` applied to an input: strftime-parse, default
absent fields, build the UTC datetime, then accept only instants strictly
between the bounds (lines 67-71). -/
def parse_dt_str (items : List FItem) (s : List Char) : Option DT :=
  match formatParse items s with
  | none => none
  | some p0 =>
    let p := applyDefaults p0
    match p.toNaiveDate, p.toNaiveTime with
    | some yo, some st =>
      let secs := naiveSecs yo.1 yo.2 st.1
      if LOWER_BOUND < secs ∧ secs < UPPER_BOUND then some ⟨secs, st.2⟩ else none
    | _, _ => none

def fmtY : List FItem := [.year]

def fmtYm : List FItem := [.year, .month]

def fmtYmd : List FItem := [.year, .month, .day]

def fmtYmdH : List FItem := [.year, .month, .day, .hour]

def fmtYmdHM : List FItem := [.year, .month, .day, .hour, .minute]

def fmtIsoSec : List FItem :=
  [.year, .lit '-', .month, .lit '-', .day, .lit 'T', .hour, .lit ':', .minute, .lit ':', .second]

def fmtIsoMin : List FItem :=
  [.year, .lit '-', .month, .lit '-', .day, .lit 'T', .hour, .lit ':', .minute]

/-! ## main.rs `parse_i64` (lines 14-26) -/

/-- Model of Rust `i64::from_str`: optional sign, one or more ASCII digits,
nothing else, and the value must fit in `i64`. -/
def i64FromStr (s : List Char) : Option Int :=
  let core : Option Int :=
    match s with
    | [] => none
    | c :: rest =>
      if c = '-' then
        if rest ≠ [] ∧ rest.all isDigitCh then some (-(natOfDigits rest : Int)) else none
      else if c = '+' then
        if rest ≠ [] ∧ rest.all isDigitCh then some ((natOfDigits rest : Int)) else none
      else if (c :: rest).all isDigitCh then some ((natOfDigits (c :: rest) : Int)) else none
  core.bind (fun v => if v < i64Min ∨ i64Max < v then none else some v)

/-- The body of `parse_i64` after a successful integer parse (main.rs lines
16-23): in-range values are seconds with 0 nanoseconds; out-of-range values
are split as `ts / 1000` seconds and `(ts % 1000) as u32` passed to the
nanosecond argument of `from_timestamp` (which panics on invalid input). -/
def parse_i64_num (ts : Int) : PResult :=
  if ts < UPPER_BOUND ∧ ts > LOWER_BOUND then liftPanic (from_timestamp_opt ts 0)
  else liftPanic (from_timestamp_opt (ts.tdiv 1000) (toU32 (ts.tmod 1000)))

/-- main.rs `parse_i64` (lines 14-26). -/
def parse_i64 (s : List Char) : PResult :=
  match i64FromStr s with
  | some ts => parse_i64_num ts
  | none => .fail

/-! ## RFC 2822 parsing (model of chrono `parse_rfc2822` and its scanners) -/

def isAlphaCh (c : Char) : Bool :=
  (97 ≤ c.toNat && c.toNat ≤ 122) || (65 ≤ c.toNat && c.toNat ≤ 90)

def lowerCh (c : Char) : Char :=
  if 65 ≤ c.toNat && c.toNat ≤ 90 then Char.ofNat (c.toNat + 32) else c

/-- Consume `pat` (given in lowercase) case-insensitively from `s`. -/
def matchCI : List Char → List Char → Option (List Char)
  | [], s => some s
  | _, [] => none
  | p :: ps, c :: cs => if lowerCh c = p then matchCI ps cs else none

/-- chrono `scan::short_weekday`: 3 letters, case-insensitive, Monday = 0. -/
def scanShortWeekday (s : List Char) : Option (Nat × List Char) :=
  ((matchCI "mon".data s).map (fun r => (0, r))) <|>
  ((matchCI "tue".data s).map (fun r => (1, r))) <|>
  ((matchCI "wed".data s).map (fun r => (2, r))) <|>
  ((matchCI "thu".data s).map (fun r => (3, r))) <|>
  ((matchCI "fri".data s).map (fun r => (4, r))) <|>
  ((matchCI "sat".data s).map (fun r => (5, r))) <|>
  ((matchCI "sun".data s).map (fun r => (6, r)))

def weekdaySuffix (w : Nat) : List Char :=
  match w with
  | 0 => "day".data | 1 => "sday".data | 2 => "nesday".data | 3 => "rsday".data
  | 4 => "day".data | 5 => "urday".data | _ => "day".data

/-- chrono `scan::short_or_long_weekday`: a short weekday name, optionally
extended by the rest of the long name when it follows. -/
def scanShortOrLongWeekday (s : List Char) : Option (Nat × List Char) :=
  match scanShortWeekday s with
  | none => none
  | some (w, r) =>
    match matchCI (weekdaySuffix w) r with
    | some r2 => some (w, r2)
    | none => some (w, r)

/-- chrono `scan::short_month0`: 3 letters, case-insensitive, January = 0. -/
def scanShortMonth0 (s : List Char) : Option (Nat × List Char) :=
  ((matchCI "jan".data s).map (fun r => (0, r))) <|>
  ((matchCI "feb".data s).map (fun r => (1, r))) <|>
  ((matchCI "mar".data s).map (fun r => (2, r))) <|>
  ((matchCI "apr".data s).map (fun r => (3, r))) <|>
  ((matchCI "may".data s).map (fun r => (4, r))) <|>
  ((matchCI "jun".data s).map (fun r => (5, r))) <|>
  ((matchCI "jul".data s).map (fun r => (6, r))) <|>
  ((matchCI "aug".data s).map (fun r => (7, r))) <|>
  ((matchCI "sep".data s).map (fun r => (8, r))) <|>
  ((matchCI "oct".data s).map (fun r => (9, r))) <|>
  ((matchCI "nov".data s).map (fun r => (10, r))) <|>
  ((matchCI "dec".data s).map (fun r => (11, r)))

/-- Numeric timezone offset `[+-]HH(sep)MM` with minutes below 60 (chrono
`scan::timezone_offset_internal`, minutes required). -/
def tzOffsetNum (colonReq : Bool) (s : List Char) : Option (Int × List Char) :=
  let body (rest : List Char) : Option (Nat × List Char) :=
    match rest with
    | h1 :: h2 :: rest1 =>
      if isDigitCh h1 && isDigitCh h2 then
        let hours := digitVal h1 * 10 + digitVal h2
        let afterColon := if colonReq then scanChar ':' rest1 else some rest1
        match afterColon with
        | none => none
        | some rest2 =>
          match rest2 with
          | m1 :: m2 :: rest3 =>
            if isDigitCh m1 && isDigitCh m2 then
              let mins := digitVal m1 * 10 + digitVal m2
              if mins < 60 then some (hours * 3600 + mins * 60, rest3) else none
            else none
          | _ => none
      else none
    | _ => none
  match s with
  | '+' :: rest => (body rest).map (fun r => ((r.1 : Int), r.2))
  | '-' :: rest => (body rest).map (fun r => (-(r.1 : Int), r.2))
  | _ => none

/-- chrono `scan::timezone_offset_2822`: legacy alphabetic zone names (an
unknown name is consumed but yields no offset), otherwise `[+-]HHMM`. -/
def tzOffset2822 (s : List Char) : Option (Option Int × List Char) :=
  let name := s.takeWhile isAlphaCh
  if name ≠ [] then
    let rest := s.drop name.length
    let low := name.map lowerCh
    if low = "gmt".data ∨ low = "ut".data then some (some 0, rest)
    else if low = "edt".data then some (some (-14400), rest)
    else if low = "est".data ∨ low = "cdt".data then some (some (-18000), rest)
    else if low = "cst".data ∨ low = "mdt".data then some (some (-21600), rest)
    else if low = "mst".data ∨ low = "pdt".data then some (some (-25200), rest)
    else if low = "pst".data then some (some (-28800), rest)
    else some (none, rest)
  else
    (tzOffsetNum false s).map (fun r => (some r.1, r.2))

/-- chrono `scan::timezone_offset_zulu` with a mandatory colon separator, as
used by `parse_rfc3339`: `Z`/`z`, or `[+-]HH:MM`. -/
def tzOffsetZulu (s : List Char) : Option (Int × List Char) :=
  match s with
  | 'Z' :: rest => some (0, rest)
  | 'z' :: rest => some (0, rest)
  | _ => tzOffsetNum true s

/-- chrono `Parsed::to_datetime` followed by `.with_timezone(&Utc)`: needs a
known offset below a day in magnitude; the UTC instant is the parsed local
datetime minus the offset, and must stay in chrono's representable range. -/
def Parsed.toDatetimeUtc (p : Parsed) : Option DT :=
  match p.offset, p.toNaiveDate, p.toNaiveTime with
  | some off, some yo, some st =>
    if off ≤ -86400 ∨ 86400 ≤ off then none
    else
      let secs := naiveSecs yo.1 yo.2 st.1 - off
      if (fromNumDays (secs.fdiv 86400 + 719163)).isSome then some ⟨secs, st.2⟩ else none
  | _, _, _ => none

/-- `parse_rfc2822`, step 1: `s.trim_left()`, then an optional short or
long weekday name that must be followed by a comma. -/
def rfc2822Weekday (s0 : List Char) : Option (Parsed × List Char) :=
  let s := trimLeft s0
  match scanShortOrLongWeekday s with
  | some (w, s1) =>
    match s1 with
    | ',' :: s2 => (Parsed.setWeekday {} w).map (fun p => (p, s2))
    | _ => none
  | none => some (({} : Parsed), s)

/-- `parse_rfc2822`, step 2: trim, then the day (1 or 2 digits). -/
def rfc2822Day (pr : Parsed × List Char) : Option (Parsed × List Char) :=
  match scanNumber 1 2 (trimLeft pr.2) with
  | none => none
  | some (d, s) => (pr.1.setDay d).map (fun p => (p, s))

/-- `parse_rfc2822`, step 3: mandatory space, then the month name. -/
def rfc2822Month (pr : Parsed × List Char) : Option (Parsed × List Char) :=
  match scanSpace pr.2 with
  | none => none
  | some s =>
    match scanShortMonth0 s with
    | none => none
    | some (m0, s2) => (pr.1.setMonth (1 + (m0 : Int))).map (fun p => (p, s2))

/-- `parse_rfc2822`, step 4: mandatory space, then a year of at least two
digits, two- and three-digit years being windowed into 1900-2049. -/
def rfc2822Year (pr : Parsed × List Char) : Option (Parsed × List Char) :=
  match scanSpace pr.2 with
  | none => none
  | some s =>
    match scanNumber 2 s.length s with
    | none => none
    | some (y0, s2) =>
      let yearlen := s.length - s2.length
      let y : Int :=
        if yearlen = 2 ∧ 0 ≤ y0 ∧ y0 ≤ 49 then y0 + 2000
        else if yearlen = 2 ∧ 50 ≤ y0 ∧ y0 ≤ 99 then y0 + 1900
        else if yearlen = 3 then y0 + 1900
        else y0
      (pr.1.setYear y).map (fun p => (p, s2))

/-- `parse_rfc2822`, step 5: mandatory space, hour, colon (whitespace
allowed on both sides), minute. -/
def rfc2822HourMin (pr : Parsed × List Char) : Option (Parsed × List Char) :=
  match scanSpace pr.2 with
  | none => none
  | some s =>
    match scanNumber 2 2 s with
    | none => none
    | some (h, s2) =>
      match pr.1.setHour h with
      | none => none
      | some p =>
        match scanChar ':' (trimLeft s2) with
        | none => none
        | some s3 =>
          match scanNumber 2 2 (trimLeft s3) with
          | none => none
          | some (mi, s4) => (p.setMinute mi).map (fun p2 => (p2, s4))

/-- `parse_rfc2822`, step 6: an optional `:SS`; if the colon is present the
seconds must parse. -/
def rfc2822Second (pr : Parsed × List Char) : Option (Parsed × List Char) :=
  match scanChar ':' (trimLeft pr.2) with
  | some s1 =>
    match scanNumber 2 2 s1 with
    | none => none
    | some (sec, s2) => (pr.1.setSecond sec).map (fun p => (p, s2))
  | none => some pr

/-- `parse_rfc2822`, step 7: mandatory space, then the zone; the offset is
only recorded when the zone determines one. -/
def rfc2822Zone (pr : Parsed × List Char) : Option (Parsed × List Char) :=
  match scanSpace pr.2 with
  | none => none
  | some s =>
    match tzOffset2822 s with
    | none => none
    | some (offOpt, s2) =>
      match offOpt with
      | some off => (pr.1.setOffset off).map (fun p => (p, s2))
      | none => some (pr.1, s2)

/-- Body of chrono `format::parse_rfc2822` (chrono 0.4): optional weekday
and comma, day, month name, 2-to-4-digit year with the RFC 2822 windowing,
`HH:MM[:SS]`, then a zone.  Returns the filled `Parsed` and rest of input. -/
def parse_rfc2822Run (s0 : List Char) : Option (Parsed × List Char) :=
  (rfc2822Weekday s0).bind rfc2822Day |>.bind rfc2822Month |>.bind rfc2822Year
    |>.bind rfc2822HourMin |>.bind rfc2822Second |>.bind rfc2822Zone

/-- Strategy 6 of main.rs (lines 83-87): `DateTime::parse_from_rfc2822`
converted to UTC; trailing input is an error. -/
def rfc2822Strategy (s : List Char) : PResult :=
  match parse_rfc2822Run s with
  | some (p, []) =>
    match p.toDatetimeUtc with
    | some dt => .ok dt
    | none => .fail
  | _ => .fail

/-! ## RFC 3339 parsing (model of chrono `parse_rfc3339`) -/

/-- chrono `scan::nanosecond`: one or more digits, the first at most nine of
which are scaled to nanoseconds; any further digits are consumed and
ignored. -/
def scanNanosecond (s : List Char) : Option (Int × List Char) :=
  let digs := (s.take 9).takeWhile isDigitCh
  if digs.length < 1 then none
  else
    let v := natOfDigits digs * 10 ^ (9 - digs.length)
    some ((v : Int), (s.drop digs.length).dropWhile isDigitCh)

/-- A numeric field followed by a setter, as one step in `parse_rfc3339`. -/
def rfc3339Num (mn mx : Nat) (set : Parsed → Int → Option Parsed)
    (pr : Parsed × List Char) : Option (Parsed × List Char) :=
  match scanNumber mn mx pr.2 with
  | none => none
  | some (v, s) => (set pr.1 v).map (fun p => (p, s))

/-- A mandatory literal character, as one step in `parse_rfc3339`. -/
def rfc3339Lit (c : Char) (pr : Parsed × List Char) : Option (Parsed × List Char) :=
  (scanChar c pr.2).map (fun s => (pr.1, s))

/-- `parse_rfc3339`: the date-time separator, `T` or `t`. -/
def rfc3339Sep (pr : Parsed × List Char) : Option (Parsed × List Char) :=
  match pr.2 with
  | 'T' :: rest => some (pr.1, rest)
  | 't' :: rest => some (pr.1, rest)
  | _ => none

/-- `parse_rfc3339`: the optional `.frac` after the seconds. -/
def rfc3339Frac (pr : Parsed × List Char) : Option (Parsed × List Char) :=
  match pr.2 with
  | '.' :: rest =>
    match scanNanosecond rest with
    | none => none
    | some (nano, rest2) => (pr.1.setNanosecond nano).map (fun p => (p, rest2))
  | _ => some pr

/-- `parse_rfc3339`: the offset (`Z`/`z` or `[+-]HH:MM`), rejected when a
day or more in magnitude. -/
def rfc3339Off (pr : Parsed × List Char) : Option (Parsed × List Char) :=
  match tzOffsetZulu pr.2 with
  | none => none
  | some (off, s) =>
    if off ≤ -86400 ∨ 86400 ≤ off then none
    else (pr.1.setOffset off).map (fun p => (p, s))

/-- Body of chrono `format::parse_rfc3339` (chrono 0.4):
`YYYY-MM-DD(T|t)HH:MM:SS[.frac](Z|z|[+-]HH:MM)` with a 4-digit unsigned
year.  Returns the filled `Parsed` and the rest of the input. -/
def parse_rfc3339Run (s : List Char) : Option (Parsed × List Char) :=
  (rfc3339Num 4 4 Parsed.setYear (({} : Parsed), s)).bind (rfc3339Lit '-')
    |>.bind (rfc3339Num 2 2 Parsed.setMonth) |>.bind (rfc3339Lit '-')
    |>.bind (rfc3339Num 2 2 Parsed.setDay) |>.bind rfc3339Sep
    |>.bind (rfc3339Num 2 2 Parsed.setHour) |>.bind (rfc3339Lit ':')
    |>.bind (rfc3339Num 2 2 Parsed.setMinute) |>.bind (rfc3339Lit ':')
    |>.bind (rfc3339Num 2 2 Parsed.setSecond) |>.bind rfc3339Frac
    |>.bind rfc3339Off

/-- Strategy 7 of main.rs (lines 88-92): `DateTime::parse_from_rfc3339`
converted to UTC; trailing input is an error. -/
def rfc3339Strategy (s : List Char) : PResult :=
  match parse_rfc3339Run s with
  | some (p, []) =>
    match p.toDatetimeUtc with
    | some dt => .ok dt
    | none => .fail
  | _ => .fail

/-! ## main.rs `parse_f64` (lines 28-43) -/

/-- An exact decimal value `num / 10 ^ den10`. -/
structure DecF where
  num : Int
  den10 : Nat
deriving Repr

/-- The value of a parsed Rust `f64`.  Finite values are modelled as the
exact decimal value of the literal: real `f64::from_str` rounds the decimal
to the nearest double, which agrees with this model on the inputs the
theorems below evaluate (their values and the arithmetic on them are
exactly representable in `f64`). -/
inductive FVal where
  | fin : DecF → FVal
  | inf : FVal
  | neginf : FVal
  | nan : FVal

/-- `x < b` for an exact decimal and an integer. -/
def DecF.ltInt (x : DecF) (b : Int) : Prop := x.num < b * (10 : Int) ^ x.den10

instance (x : DecF) (b : Int) : Decidable (x.ltInt b) := by
  unfold DecF.ltInt; infer_instance

/-- `b < x` for an integer and an exact decimal. -/
def DecF.gtInt (x : DecF) (b : Int) : Prop := b * (10 : Int) ^ x.den10 < x.num

instance (x : DecF) (b : Int) : Decidable (x.gtInt b) := by
  unfold DecF.gtInt; infer_instance

/-- Multiplication by 1000 (exact). -/
def DecF.mul1000 (x : DecF) : DecF := ⟨x.num * 1000, x.den10⟩

/-- Rust `f64::round`: round half away from zero, computed exactly. -/
def DecF.roundAway (x : DecF) : Int :=
  let d : Int := (10 : Int) ^ x.den10
  if 0 ≤ x.num then (2 * x.num + d).tdiv (2 * d)
  else -((2 * (-x.num) + d).tdiv (2 * d))

/-- Split an optional leading sign: (is-negative, rest). -/
def splitSign (s : List Char) : Bool × List Char :=
  match s with
  | [] => (false, [])
  | c :: rest => if c = '-' then (true, rest) else if c = '+' then (false, rest) else (false, c :: rest)

/-- The exponent part of a Rust float literal: empty, or `e`/`E` followed by
an optionally signed digit string. -/
def parseExpPart (afterFrac : List Char) : Option Int :=
  match afterFrac with
  | [] => some 0
  | c :: rest =>
    if c = 'e' ∨ c = 'E' then
      let se := splitSign rest
      if se.2 ≠ [] ∧ se.2.all isDigitCh then
        some (if se.1 then -(natOfDigits se.2 : Int) else (natOfDigits se.2 : Int))
      else none
    else none

/-- Model of Rust `f64::from_str` syntax: optional sign, then `inf`,
`infinity`, `nan` (case-insensitive), or a decimal number with optional
fraction and exponent. -/
def f64FromStr (s : List Char) : Option FVal :=
  let sp := splitSign s
  let neg := sp.1
  let body := sp.2
  let low := body.map lowerCh
  if low = "inf".data ∨ low = "infinity".data then some (if neg then .neginf else .inf)
  else if low = "nan".data then some .nan
  else
    let intDigs := body.takeWhile isDigitCh
    let afterInt := body.drop intDigs.length
    let fd : List Char × List Char :=
      match afterInt with
      | [] => ([], [])
      | c :: rest =>
        if c = '.' then (rest.takeWhile isDigitCh, rest.drop (rest.takeWhile isDigitCh).length)
        else ([], c :: rest)
    let fracDigs := fd.1
    let afterFrac := fd.2
    if intDigs = [] ∧ fracDigs = [] then none
    else
      match parseExpPart afterFrac with
      | none => none
      | some e =>
        let n0 : Int := (natOfDigits (intDigs ++ fracDigs) : Int)
        let n1 : Int := if neg then -n0 else n0
        let v : DecF :=
          if 0 ≤ e then ⟨n1 * (10 : Int) ^ e.toNat, fracDigs.length⟩
          else ⟨n1, fracDigs.length + (-e).toNat⟩
        some (.fin v)

/-- Rust saturating float-to-`i64` cast. -/
def satI64 (i : Int) : Int := if i < i64Min then i64Min else if i64Max < i then i64Max else i

/-- Body of `parse_f64` after a successful float parse (main.rs lines
30-39): values strictly inside the bounds are scaled from seconds to
milliseconds and rounded to the nearest integer, others are rounded and
taken as milliseconds; the result is split as `ts / 1000` seconds and
`(ts % 1000) as u32` passed to the nanosecond argument of
`from_timestamp`.  A NaN casts to 0; infinities saturate. -/
def parse_f64_val (v : FVal) : PResult :=
  let ts : Int :=
    match v with
    | .nan => 0
    | .inf => i64Max
    | .neginf => i64Min
    | .fin q =>
      if q.ltInt UPPER_BOUND ∧ q.gtInt LOWER_BOUND then satI64 q.mul1000.roundAway
      else satI64 q.roundAway
  liftPanic (from_timestamp_opt (ts.tdiv 1000) (toU32 (ts.tmod 1000)))

/-- main.rs `parse_f64` (lines 28-43). -/
def parse_f64 (s : List Char) : PResult :=
  match f64FromStr s with
  | some v => parse_f64_val v
  | none => .fail

/-! ## main.rs `parse` (lines 75-105) -/

def liftOpt (f : List Char → Option DT) : List Char → PResult := fun s =>
  match f s with
  | some dt => .ok dt
  | none => .fail

/-- The strategy list of main.rs lines 77-97, in source order. -/
def strategies : List (List Char → PResult) :=
  [ liftOpt (parse_dt_str fmtY),
    liftOpt (parse_dt_str fmtYm),
    liftOpt (parse_dt_str fmtYmd),
    liftOpt (parse_dt_str fmtYmdH),
    liftOpt (parse_dt_str fmtYmdHM),
    rfc2822Strategy,
    rfc3339Strategy,
    liftOpt (parse_dt_str fmtIsoSec),
    liftOpt (parse_dt_str fmtIsoMin),
    parse_i64,
    parse_f64 ]

/-- The `for p in [...] { if let Ok(t) = p(s) { return Ok(t) } }` loop of
main.rs lines 77-103: first success wins, a panic aborts, and the fall
through returns `Err(())`. -/
def runStrategies : List (List Char → PResult) → List Char → PResult
  | [], _ => .fail
  | p :: ps, s =>
    match p s with
    | .ok t => .ok t
    | .crash => .crash
    | .fail => runStrategies ps s

/-- main.rs `parse` (lines 75-105). -/
def parse (s : List Char) : PResult := runStrategies strategies s

def parseStr (s : String) : PResult := parse s.data

/-! ## RFC 3339 formatting (model of chrono `to_rfc3339`) -/

def decDigitsAux : Nat → Nat → List Char
  | 0, _ => []
  | fuel + 1, n =>
    if n < 10 then [Char.ofNat (48 + n)]
    else decDigitsAux fuel (n / 10) ++ [Char.ofNat (48 + n % 10)]

/-- Decimal digits of a natural number (enough fuel for any value the
program can print). -/
def decDigits (n : Nat) : List Char := decDigitsAux 30 n

/-- Canonical decimal rendering of an integer ("the decimal string of"). -/
def decString (i : Int) : List Char :=
  if i < 0 then '-' :: decDigits i.natAbs else decDigits i.toNat

/-- Zero-padded decimal of width `w`. -/
def padZ (w : Nat) (n : Nat) : List Char :=
  let d := decDigits n
  List.replicate (w - d.length) '0' ++ d

/-- Subsecond part of chrono's `Debug` rendering of a `NaiveTime`: empty for
zero, otherwise 3, 6 or 9 digits. -/
def fracDigitsRfc (nano : Nat) : List Char :=
  if nano = 0 then []
  else if nano % 1000000 = 0 then '.' :: padZ 3 (nano / 1000000)
  else if nano % 1000 = 0 then '.' :: padZ 6 (nano / 1000)
  else '.' :: padZ 9 nano

/-- Model of chrono `DateTime<Utc>::to_rfc3339` (chrono 0.4 formats RFC 3339
by reusing the `Debug` renderings of the date and time): years in
`[0, 9999]` print as 4 digits, other years with an explicit sign; a stored
leap second prints as second 60; the offset prints as `+00:00`. -/
def toRfc3339 (dt : DT) : List Char :=
  let days := dt.secs.fdiv 86400
  let sod := (dt.secs.fmod 86400).toNat
  let yo := (fromNumDays (days + 719163)).getD (1970, 1)
  let md := ordToMd (isLeapYear yo.1) yo.2
  let h := sod / 3600
  let mi := sod % 3600 / 60
  let sec := sod % 60
  let sf := if dt.nsecs ≥ 1000000000 then (sec + 1, dt.nsecs - 1000000000) else (sec, dt.nsecs)
  let yearStr :=
    if 0 ≤ yo.1 ∧ yo.1 ≤ 9999 then padZ 4 yo.1.toNat
    else if yo.1 < 0 then '-' :: padZ 4 yo.1.natAbs
    else '+' :: padZ 4 yo.1.toNat
  yearStr ++ '-' :: padZ 2 md.1 ++ '-' :: padZ 2 md.2 ++ 'T' :: padZ 2 h
    ++ ':' :: padZ 2 mi ++ ':' :: padZ 2 sf.1 ++ fracDigitsRfc sf.2 ++ "+00:00".data

/-! ## main (lines 107-174)

Output rendering is presentational (spec section 1); each printed line is
modelled as a tagged value carrying the data main.rs formats into it, in
print order.  `stdout`/`stderr` collect the lines of the two streams;
`exitCode` is 0 for a normal return from `main` and 101 for a Rust panic. -/

inductive OutLine where
  | unixTime : Int → OutLine
  | unixFloat : Int → OutLine
  | unixMs : Int → OutLine
  | blank : OutLine
  | secondsSince : Int → OutLine
  | hoursSince : Int → OutLine
  | daysSince : Int → OutLine
  | secondsUntil : Int → OutLine
  | hoursUntil : Int → OutLine
  | daysUntil : Int → OutLine
  | rfc2822Utc : DT → OutLine
  | rfc3339Utc : List Char → OutLine
  | ymdUtc : DT → OutLine
  | ymdhUtc : DT → OutLine
  | rfc2822Local : DT → OutLine
  | rfc3339Local : DT → OutLine
  | errParse : List Char → OutLine
  | usage : OutLine
deriving DecidableEq, Repr

/-- Exact nanoseconds of `a - b` (chrono `Duration` between datetimes). -/
def durNanos (a b : DT) : Int :=
  (a.secs - b.secs) * 1000000000 + ((a.nsecs : Int) - (b.nsecs : Int))

/-- chrono `Duration::num_seconds`: whole seconds, truncated toward zero. -/
def durSeconds (a b : DT) : Int := (durNanos a b).tdiv 1000000000

/-- The conditional since/until block of main.rs lines 143-163. -/
def deltaBlock (utc_ts now : DT) : List OutLine :=
  if utc_ts < now then
    let e := durSeconds now utc_ts
    [OutLine.secondsSince e]
      ++ (if e.tdiv 3600 > 0 then [OutLine.hoursSince (e.tdiv 3600)] else [])
      ++ (if e.tdiv 86400 > 0 then [OutLine.daysSince (e.tdiv 86400)] else [])
      ++ [OutLine.blank]
  else if now < utc_ts then
    let u := durSeconds utc_ts now
    [OutLine.secondsUntil u]
      ++ (if u.tdiv 3600 > 0 then [OutLine.hoursUntil (u.tdiv 3600)] else [])
      ++ (if u.tdiv 86400 > 0 then [OutLine.daysUntil (u.tdiv 86400)] else [])
      ++ [OutLine.blank]
  else []

/-- The standard-output report of main.rs lines 134-173 for a resolved
instant. -/
def reportLines (utc_ts now : DT) : List OutLine :=
  [OutLine.unixTime utc_ts.secs, OutLine.unixFloat utc_ts.timestampMillis,
   OutLine.unixMs utc_ts.timestampMillis, OutLine.blank]
  ++ deltaBlock utc_ts now
  ++ [OutLine.rfc2822Utc utc_ts, OutLine.rfc3339Utc (toRfc3339 utc_ts),
      OutLine.ymdUtc utc_ts, OutLine.ymdhUtc utc_ts, OutLine.blank,
      OutLine.rfc2822Local utc_ts, OutLine.rfc3339Local utc_ts]

/-- Reference meaning of a UTC calendar date-time (the spec's
`Y-M-DTh:m:sZ`): the instant that many seconds past the epoch, with no
subsecond part. -/
def utcInstant (y : Int) (m d h mi sec : Nat) : DT :=
  ⟨naiveSecs y (cumMonthDays (isLeapYear y) m + d) (h * 3600 + mi * 60 + sec), 0⟩

structure MainOut where
  stdout : List OutLine
  stderr : List OutLine
  exitCode : Nat
deriving DecidableEq, Repr

/-- main.rs `main` (lines 107-174) given the optional DATETIME argument and
the clock's current instant.  On parse failure it prints the error naming
the input and the usage text to stderr and returns from `main` (exit code
0); a panic aborts with Rust's exit code 101. -/
def mainRun (arg : Option (List Char)) (now : DT) : MainOut :=
  match arg with
  | some s =>
    match parse s with
    | .crash => ⟨[], [], 101⟩
    | .fail => ⟨[], [.errParse s, .usage], 0⟩
    | .ok utc_ts => ⟨reportLines utc_ts now, [], 0⟩
  | none => ⟨reportLines now now, [], 0⟩

/-! # Theorems -/

/-! ## Bound constants, unfolded for arithmetic -/

theorem LOWER_BOUND_eq : LOWER_BOUND = -2208988800 := rfl

theorem UPPER_BOUND_eq : UPPER_BOUND = 16725225600 := rfl

/-- Epoch-day-count bounds for Jan 1 of a year in [1901, 2499]; the
divisions are by constants, so this is pure linear arithmetic. -/
theorem daysFromCE_bounds (Y : Int) (h1 : 1901 ≤ Y) (h2 : Y ≤ 2499) :
    693597 ≤ daysFromCE Y 1 ∧ daysFromCE Y 1 ≤ 912741 := by
  unfold daysFromCE
  simp only []
  rw [if_neg (by omega)]
  rw [Int.tdiv_eq_ediv (by omega) (by omega), Int.tdiv_eq_ediv (by omega) (by omega),
    Int.tdiv_eq_ediv (by omega) (by omega)]
  simp only [zero_mul, mul_zero, add_zero, zero_add, neg_zero]
  omega

/-! ## Lemmas: decimal digits and scanning -/

theorem isDigitCh_iff (c : Char) : isDigitCh c = true ↔ 48 ≤ c.toNat ∧ c.toNat ≤ 57 := by
  unfold isDigitCh
  simp

theorem takeWhile_len_le (p : Char → Bool) (l : List Char) :
    (l.takeWhile p).length ≤ l.length := by
  induction l with
  | nil => simp
  | cons a l ih =>
    rw [List.takeWhile_cons]
    split
    · simpa using ih
    · simp

theorem foldl_digits_from (ds : List Char) (a : Nat) :
    ds.foldl (fun x c => x * 10 + digitVal c) a =
      a * 10 ^ ds.length + ds.foldl (fun x c => x * 10 + digitVal c) 0 := by
  induction ds generalizing a with
  | nil => simp
  | cons c cs ih =>
    simp only [List.foldl_cons, List.length_cons]
    rw [ih (a * 10 + digitVal c), ih (0 * 10 + digitVal c)]
    ring

theorem natOfDigits_cons (c : Char) (cs : List Char) :
    natOfDigits (c :: cs) = digitVal c * 10 ^ cs.length + natOfDigits cs := by
  unfold natOfDigits
  simp only [List.foldl_cons]
  rw [foldl_digits_from cs (0 * 10 + digitVal c)]
  ring

theorem natOfDigits_append (xs ys : List Char) :
    natOfDigits (xs ++ ys) = natOfDigits xs * 10 ^ ys.length + natOfDigits ys := by
  unfold natOfDigits
  rw [List.foldl_append]
  exact foldl_digits_from ys _

theorem natOfDigits_lt (ds : List Char) (h : ds.all isDigitCh = true) :
    natOfDigits ds < 10 ^ ds.length := by
  induction ds with
  | nil => simp [natOfDigits]
  | cons c cs ih =>
    simp only [List.all_cons, Bool.and_eq_true] at h
    have hc : digitVal c ≤ 9 := by
      have := (isDigitCh_iff c).mp h.1
      unfold digitVal
      omega
    have := ih h.2
    rw [natOfDigits_cons]
    simp only [List.length_cons, pow_succ]
    nlinarith

theorem digitCh_toNat (n : Nat) (h : n < 10) : (Char.ofNat (48 + n)).toNat = 48 + n := by
  interval_cases n <;> decide

theorem isDigitCh_digitCh (n : Nat) (h : n < 10) : isDigitCh (Char.ofNat (48 + n)) = true := by
  rw [isDigitCh_iff, digitCh_toNat n h]
  omega

theorem digitVal_digitCh (n : Nat) (h : n < 10) : digitVal (Char.ofNat (48 + n)) = n := by
  unfold digitVal
  rw [digitCh_toNat n h]
  omega

theorem decDigitsAux_all (fuel : Nat) : ∀ n, n < 10 ^ fuel →
    (decDigitsAux fuel n).all isDigitCh = true := by
  induction fuel with
  | zero => intro n h; interval_cases n; decide
  | succ f ih =>
    intro n h
    unfold decDigitsAux
    by_cases hn : n < 10
    · rw [if_pos hn]
      simp [isDigitCh_digitCh n hn]
    · rw [if_neg hn]
      rw [List.all_append]
      have hdiv : n / 10 < 10 ^ f := by
        rw [Nat.div_lt_iff_lt_mul (by norm_num)]
        calc n < 10 ^ (f + 1) := h
        _ = 10 ^ f * 10 := by ring
      rw [ih (n / 10) hdiv]
      simp [isDigitCh_digitCh (n % 10) (Nat.mod_lt n (by norm_num))]

theorem decDigitsAux_natOf (fuel : Nat) : ∀ n, n < 10 ^ fuel →
    natOfDigits (decDigitsAux fuel n) = n := by
  induction fuel with
  | zero => intro n h; interval_cases n; decide
  | succ f ih =>
    intro n h
    unfold decDigitsAux
    by_cases hn : n < 10
    · rw [if_pos hn]
      rw [show [Char.ofNat (48 + n)] = [Char.ofNat (48 + n)] ++ [] from rfl]
      rw [natOfDigits_append]
      simp [natOfDigits, digitVal_digitCh n hn]
    · rw [if_neg hn]
      have hdiv : n / 10 < 10 ^ f := by
        rw [Nat.div_lt_iff_lt_mul (by norm_num)]
        calc n < 10 ^ (f + 1) := h
        _ = 10 ^ f * 10 := by ring
      rw [natOfDigits_append, ih (n / 10) hdiv]
      have : natOfDigits [Char.ofNat (48 + n % 10)] = n % 10 := by
        simp [natOfDigits, digitVal_digitCh (n % 10) (Nat.mod_lt n (by norm_num))]
      rw [this]
      simp
      omega

theorem decDigitsAux_ne_nil (fuel n : Nat) (hf : 0 < fuel) :
    decDigitsAux fuel n ≠ [] := by
  cases fuel with
  | zero => omega
  | succ f =>
    unfold decDigitsAux
    by_cases hn : n < 10
    · rw [if_pos hn]; simp
    · rw [if_neg hn]; simp

theorem decDigitsAux_len_lower (fuel : Nat) : ∀ n, n < 10 ^ fuel → 1 ≤ n →
    10 ^ ((decDigitsAux fuel n).length - 1) ≤ n := by
  induction fuel with
  | zero => intro n h; omega
  | succ f ih =>
    intro n h h1
    unfold decDigitsAux
    by_cases hn : n < 10
    · rw [if_pos hn]
      simpa using h1
    · rw [if_neg hn]
      have hdiv : n / 10 < 10 ^ f := by
        rw [Nat.div_lt_iff_lt_mul (by norm_num)]
        calc n < 10 ^ (f + 1) := h
        _ = 10 ^ f * 10 := by ring
      have hd1 : 1 ≤ n / 10 := Nat.one_le_div_iff (by norm_num) |>.mpr (by omega)
      have hrec := ih (n / 10) hdiv hd1
      have hne := decDigitsAux_ne_nil f (n / 10) ?_
      · rw [List.length_append]
        have hlen : 1 ≤ (decDigitsAux f (n / 10)).length := List.length_pos.mpr hne
        have : (decDigitsAux f (n / 10)).length + [Char.ofNat (48 + n % 10)].length - 1 =
            ((decDigitsAux f (n / 10)).length - 1) + 1 := by simp; omega
        rw [this, pow_succ]
        have : 10 ^ ((decDigitsAux f (n / 10)).length - 1) * 10 ≤ n / 10 * 10 :=
          Nat.mul_le_mul_right 10 hrec
        calc 10 ^ ((decDigitsAux f (n / 10)).length - 1) * 10 ≤ n / 10 * 10 := this
          _ ≤ n := Nat.div_mul_le_self n 10
      · cases f with
        | zero => exfalso; omega
        | succ f2 => omega

theorem decDigits_spec (n : Nat) (h : n < 10 ^ 30) :
    (decDigits n).all isDigitCh = true ∧ natOfDigits (decDigits n) = n ∧
      decDigits n ≠ [] ∧ n < 10 ^ (decDigits n).length := by
  refine ⟨decDigitsAux_all 30 n h, decDigitsAux_natOf 30 n h,
    decDigitsAux_ne_nil 30 n (by norm_num), ?_⟩
  have h1 := decDigitsAux_natOf 30 n h
  have h2 := decDigitsAux_all 30 n h
  have := natOfDigits_lt (decDigitsAux 30 n) h2
  unfold decDigits
  omega

theorem decDigits_len_four (n : Nat) (h1 : 1000 ≤ n) (h2 : n ≤ 9999) :
    (decDigits n).length = 4 := by
  have hs := decDigits_spec n (by omega)
  have hlow : 10 ^ ((decDigits n).length - 1) ≤ n :=
    decDigitsAux_len_lower 30 n (by omega) (by omega)
  have h4 : (decDigits n).length ≤ 4 := by
    by_contra hc
    push_neg at hc
    have hp : 10 ^ 4 ≤ 10 ^ ((decDigits n).length - 1) :=
      Nat.pow_le_pow_right (by norm_num) (by omega)
    omega
  have h5 : 4 ≤ (decDigits n).length := by
    by_contra hc
    push_neg at hc
    have hp : 10 ^ (decDigits n).length ≤ 10 ^ 3 :=
      Nat.pow_le_pow_right (by norm_num) (by omega)
    have := hs.2.2.2
    omega
  omega

/-! ## Lemmas: scanNumber on digit strings -/

theorem scanNumber_all (mn mx : Nat) (ds : List Char) (hall : ds.all isDigitCh = true)
    (hmn : mn ≤ ds.length) (hmx : ds.length ≤ mx)
    (hval : (natOfDigits ds : Int) ≤ i64Max) :
    scanNumber mn mx ds = some ((natOfDigits ds : Int), []) := by
  unfold scanNumber
  have htake : ds.take mx = ds := List.take_of_length_le hmx
  rw [htake]
  have htw : ds.takeWhile isDigitCh = ds := by
    rw [List.takeWhile_eq_self_iff]
    intro x hx
    exact (List.all_eq_true.mp hall) x hx
  rw [htw]
  rw [if_neg (by omega), if_neg (by omega)]
  rw [List.drop_of_length_le (le_refl _)]

theorem scanNumber_stop (mn mx : Nat) (ds : List Char) (c : Char) (cs : List Char)
    (hall : ds.all isDigitCh = true) (hmn : mn ≤ ds.length) (hmx : ds.length ≤ mx)
    (hc : isDigitCh c = false) (hval : (natOfDigits ds : Int) ≤ i64Max) :
    scanNumber mn mx (ds ++ c :: cs) = some ((natOfDigits ds : Int), c :: cs) := by
  unfold scanNumber
  have htake : (ds ++ c :: cs).take mx = ds ++ (c :: cs).take (mx - ds.length) := by
    rw [List.take_append_eq_append_take, List.take_of_length_le hmx]
  rw [htake]
  have htw : (ds ++ (c :: cs).take (mx - ds.length)).takeWhile isDigitCh = ds := by
    rw [List.takeWhile_append]
    have hds : ds.takeWhile isDigitCh = ds := by
      rw [List.takeWhile_eq_self_iff]
      intro x hx
      exact (List.all_eq_true.mp hall) x hx
    rw [if_pos (by rw [hds])]
    cases hk : mx - ds.length with
    | zero => simp
    | succ k =>
      simp only [List.take_succ_cons, List.takeWhile_cons, hc]
      simp
  rw [htw]
  rw [if_neg (by omega), if_neg (by omega)]
  congr 1
  rw [List.drop_append_eq_append_drop]
  rw [List.drop_of_length_le (le_refl _)]
  simp

theorem scanNumber_exact (mn : Nat) (ds rest : List Char) (hall : ds.all isDigitCh = true)
    (hmn : mn ≤ ds.length) (hval : (natOfDigits ds : Int) ≤ i64Max) :
    scanNumber mn ds.length (ds ++ rest) = some ((natOfDigits ds : Int), rest) := by
  unfold scanNumber
  rw [List.take_left]
  have htw : ds.takeWhile isDigitCh = ds := by
    rw [List.takeWhile_eq_self_iff]
    intro x hx
    exact (List.all_eq_true.mp hall) x hx
  rw [htw]
  rw [if_neg (by omega), if_neg (by omega)]
  rw [List.drop_left]

theorem scanNumber_none_head (mn mx : Nat) (c : Char) (cs : List Char)
    (hc : isDigitCh c = false) (hmn : 1 ≤ mn) :
    scanNumber mn mx (c :: cs) = none := by
  unfold scanNumber
  cases hk : mx with
  | zero => simp [hmn]; omega
  | succ k =>
    simp only [List.take_succ_cons, List.takeWhile_cons, hc]
    simp
    omega

theorem scanNumber_none_shortAll (mn mx : Nat) (ds : List Char)
    (hall : ds.all isDigitCh = true) (hlen : ds.length < mn) :
    scanNumber mn mx ds = none := by
  unfold scanNumber
  have h1 : ((ds.take mx).takeWhile isDigitCh).length < mn := by
    have ha : ((ds.take mx).takeWhile isDigitCh).length ≤ (ds.take mx).length :=
      takeWhile_len_le _ _
    have h2 : (ds.take mx).length ≤ ds.length := by
      rw [List.length_take]; omega
    omega
  rw [if_pos h1]

/-! ## Lemmas: character classes and trimming -/

theorem isWsCh_eq_false (c : Char) (h : 48 ≤ c.toNat) : isWsCh c = false := by
  have h1 : c ≠ ' ' := fun he => by rw [he] at h; exact absurd h (by decide)
  have h2 : c ≠ '\t' := fun he => by rw [he] at h; exact absurd h (by decide)
  have h3 : c ≠ '\n' := fun he => by rw [he] at h; exact absurd h (by decide)
  have h4 : c ≠ '\r' := fun he => by rw [he] at h; exact absurd h (by decide)
  simp [isWsCh, h1, h2, h3, h4]

theorem digit_ne_minus (c : Char) (h : isDigitCh c = true) : c ≠ '-' := by
  intro he
  rw [he] at h
  exact absurd h (by decide)

theorem digit_ne_plus (c : Char) (h : isDigitCh c = true) : c ≠ '+' := by
  intro he
  rw [he] at h
  exact absurd h (by decide)

theorem trimLeft_all_digits (ds : List Char) (h : ds.all isDigitCh = true) :
    trimLeft ds = ds := by
  cases ds with
  | nil => rfl
  | cons c cs =>
    simp only [List.all_cons, Bool.and_eq_true] at h
    unfold trimLeft
    rw [List.dropWhile_cons]
    rw [isWsCh_eq_false c ((isDigitCh_iff c).mp h.1).1]
    simp

theorem all_digits_head (c : Char) (cs : List Char)
    (h : (c :: cs).all isDigitCh = true) : isDigitCh c = true := by
  simp only [List.all_cons, Bool.and_eq_true] at h
  exact h.1

/-! ## Lemmas: the year item on an all-digit string -/

theorem cumMonthDays_one (b : Bool) : cumMonthDays b 1 = 0 := by cases b <;> rfl

theorem monthLen_one (b : Bool) : monthLen b 1 = 31 := by cases b <;> rfl

/-- Running the `%Y` numeric item on a nonempty all-digit string of at most
4 digits consumes the whole string as an unsigned year. -/
theorem runItem_year_digits (p : Parsed) (ds : List Char)
    (hall : ds.all isDigitCh = true) (hne : ds ≠ [])
    (hlen : ds.length ≤ 4) :
    runItem p .year ds = (p.setYear (natOfDigits ds)).map (fun p2 => (p2, [])) := by
  obtain ⟨c, cs, rfl⟩ := List.exists_cons_of_ne_nil hne
  unfold runItem
  rw [trimLeft_all_digits _ hall]
  have hc := all_digits_head c cs hall
  simp only []
  rw [if_neg (by simp [digit_ne_minus c hc]), if_neg (by simp [digit_ne_plus c hc])]
  have hval : (natOfDigits (c :: cs) : Int) ≤ i64Max := by
    have := natOfDigits_lt (c :: cs) hall
    have hp : (10 : Nat) ^ (c :: cs).length ≤ 10 ^ 4 :=
      Nat.pow_le_pow_right (by norm_num) hlen
    have : natOfDigits (c :: cs) < 10 ^ 4 := by omega
    unfold i64Max
    omega
  rw [scanNumber_all 1 4 (c :: cs) hall (by simp) hlen hval]

/-- The `%Y`-only calendar strategy on the decimal string of a year in
[1901, 2499]: it parses the year, defaults month and day to 1 and the time
to 00:00, and the range check passes. -/
theorem parse_dt_str_year (Y : Int) (h1 : 1901 ≤ Y) (h2 : Y ≤ 2499) :
    parse_dt_str fmtY (decString Y) = some (utcInstant Y 1 1 0 0 0) := by
  have hY0 : (0 : Int) ≤ Y := by omega
  have hds : decString Y = decDigits Y.toNat := by
    unfold decString
    rw [if_neg (by omega)]
  have hn1 : 1000 ≤ Y.toNat := by omega
  have hn2 : Y.toNat ≤ 9999 := by omega
  obtain ⟨hall, hnof, hnenil, hltp⟩ := decDigits_spec Y.toNat (by omega)
  have hlen4 := decDigits_len_four Y.toNat hn1 hn2
  have hcast : (natOfDigits (decDigits Y.toNat) : Int) = Y := by
    rw [hnof]
    omega
  have hset : Parsed.setYear {} Y = some { year := some Y } := by
    unfold Parsed.setYear
    rw [if_neg (by omega)]
  have hdef : applyDefaults { year := some Y } =
      { year := some Y, month := some 1, day := some 1, hourDiv12 := some 0,
        hourMod12 := some 0, minute := some 0 } := rfl
  have hdate : Parsed.toNaiveDate
      { year := some Y, month := some 1, day := some 1, hourDiv12 := some 0,
        hourMod12 := some 0, minute := some 0 } = some (Y, 1) := by
    unfold Parsed.toNaiveDate
    simp only []
    rw [if_neg (by omega), if_neg (by norm_num)]
    rw [cumMonthDays_one, monthLen_one]
    rw [if_neg (by norm_num)]
  have htime : Parsed.toNaiveTime
      { year := some Y, month := some 1, day := some 1, hourDiv12 := some 0,
        hourMod12 := some 0, minute := some 0 } = some (0, 0) := rfl
  have hrange : LOWER_BOUND < naiveSecs Y 1 0 ∧ naiveSecs Y 1 0 < UPPER_BOUND := by
    unfold naiveSecs
    rw [LOWER_BOUND_eq, UPPER_BOUND_eq]
    have hb := daysFromCE_bounds Y h1 h2
    constructor <;> omega
  unfold parse_dt_str
  rw [hds]
  unfold formatParse fmtY
  unfold runItems
  rw [runItem_year_digits {} (decDigits Y.toNat) hall hnenil (by omega)]
  rw [hcast, hset]
  simp only [Option.map_some']
  unfold runItems
  simp only []
  rw [hdef, hdate, htime]
  simp only []
  rw [if_pos (by simpa using hrange)]
  unfold utcInstant
  rw [cumMonthDays_one]

/-! ## C2 machinery: later strategies fail on decimal integer strings -/

theorem lowerCh_of_small (c : Char) (h : c.toNat < 65) : lowerCh c = c := by
  unfold lowerCh
  rw [if_neg]
  simp
  omega

theorem matchCI_head_ne (p : Char) (ps : List Char) (c : Char) (cs : List Char)
    (hp : 97 ≤ p.toNat) (hc : c.toNat < 65) : matchCI (p :: ps) (c :: cs) = none := by
  unfold matchCI
  rw [lowerCh_of_small c hc]
  rw [if_neg]
  intro he
  rw [he] at hc
  omega

theorem scanShortWeekday_none_small (c : Char) (cs : List Char) (h : c.toNat < 65) :
    scanShortWeekday (c :: cs) = none := by
  unfold scanShortWeekday
  rw [show ("mon".data : List Char) = 'm' :: "on".data from rfl,
    show ("tue".data : List Char) = 't' :: "ue".data from rfl,
    show ("wed".data : List Char) = 'w' :: "ed".data from rfl,
    show ("thu".data : List Char) = 't' :: "hu".data from rfl,
    show ("fri".data : List Char) = 'f' :: "ri".data from rfl,
    show ("sat".data : List Char) = 's' :: "at".data from rfl,
    show ("sun".data : List Char) = 's' :: "un".data from rfl]
  rw [matchCI_head_ne 'm' _ c cs (by decide) h, matchCI_head_ne 't' _ c cs (by decide) h,
    matchCI_head_ne 'w' _ c cs (by decide) h, matchCI_head_ne 't' _ c cs (by decide) h,
    matchCI_head_ne 'f' _ c cs (by decide) h, matchCI_head_ne 's' _ c cs (by decide) h,
    matchCI_head_ne 's' _ c cs (by decide) h]
  rfl

theorem scanShortOrLongWeekday_none_small (c : Char) (cs : List Char) (h : c.toNat < 65) :
    scanShortOrLongWeekday (c :: cs) = none := by
  unfold scanShortOrLongWeekday
  rw [scanShortWeekday_none_small c cs h]

theorem scanSpace_digits (ds : List Char) (h : ds.all isDigitCh = true) :
    scanSpace ds = none := by
  cases ds with
  | nil => rfl
  | cons c cs =>
    unfold scanSpace
    simp only []
    rw [isWsCh_eq_false c ((isDigitCh_iff c).mp (all_digits_head c cs h)).1]
    simp

theorem all_digits_take (n : Nat) (ds : List Char) (h : ds.all isDigitCh = true) :
    (ds.take n).all isDigitCh = true := by
  rw [List.all_eq_true] at h ⊢
  exact fun x hx => h x (List.take_subset n ds hx)

theorem all_digits_drop (n : Nat) (ds : List Char) (h : ds.all isDigitCh = true) :
    (ds.drop n).all isDigitCh = true := by
  rw [List.all_eq_true] at h ⊢
  exact fun x hx => h x (List.drop_subset n ds hx)

theorem setDay_empty (v : Int) (h0 : 0 ≤ v) (h1 : v ≤ 99) :
    Parsed.setDay {} v = some { day := some v.toNat } := by
  unfold Parsed.setDay
  rw [if_neg (by omega)]
  rfl

/-- The RFC 2822 strategy fails on every all-digit string: the mandatory
month name never matches a digit (or the input ends first). -/
theorem rfc2822_fail_digits (ds : List Char) (hall : ds.all isDigitCh = true) :
    rfc2822Strategy ds = .fail := by
  cases ds with
  | nil => decide
  | cons c cs =>
    have hc := all_digits_head c cs hall
    have hsmall : c.toNat < 65 := by
      have := (isDigitCh_iff c).mp hc
      omega
    have hw : rfc2822Weekday (c :: cs) = some ({}, c :: cs) := by
      unfold rfc2822Weekday
      rw [trimLeft_all_digits _ hall]
      simp only []
      rw [scanShortOrLongWeekday_none_small c cs hsmall]
    have hday : ∃ p2 rest, rfc2822Day ({}, c :: cs) = some (p2, rest) ∧
        rest.all isDigitCh = true := by
      cases cs with
      | nil =>
        have hlt : natOfDigits [c] < 10 := by
          have := natOfDigits_lt [c] hall
          simpa using this
        have hnum : scanNumber 1 2 [c] = some ((natOfDigits [c] : Int), []) :=
          scanNumber_all 1 2 [c] hall (by simp) (by simp)
            (by unfold i64Max; omega)
        refine ⟨{ day := some ((natOfDigits [c] : Int)).toNat }, [], ?_, by simp⟩
        unfold rfc2822Day
        dsimp only
        rw [trimLeft_all_digits _ hall, hnum]
        simp only []
        rw [setDay_empty _ (by omega) (by omega)]
        rfl
      | cons c2 cs2 =>
        have hall2 : ([c, c2]).all isDigitCh = true := by
          simp only [List.all_cons, Bool.and_eq_true] at hall ⊢
          exact ⟨hall.1, hall.2.1, rfl⟩
        have hlt : natOfDigits [c, c2] < 100 := by
          have := natOfDigits_lt [c, c2] hall2
          simpa using this
        have hnum : scanNumber 1 2 (c :: c2 :: cs2) = some ((natOfDigits [c, c2] : Int), cs2) := by
          have h := scanNumber_exact 1 [c, c2] cs2 hall2 (by simp)
            (by unfold i64Max; omega)
          simpa using h
        refine ⟨{ day := some ((natOfDigits [c, c2] : Int)).toNat }, cs2, ?_, ?_⟩
        · unfold rfc2822Day
          dsimp only
          rw [trimLeft_all_digits _ hall, hnum]
          simp only []
          rw [setDay_empty _ (by omega) (by omega)]
          rfl
        · simpa using all_digits_drop 2 (c :: c2 :: cs2) hall
    obtain ⟨p2, rest, hday, hrestall⟩ := hday
    have hrun : parse_rfc2822Run (c :: cs) = none := by
      unfold parse_rfc2822Run
      rw [hw]
      rw [Option.some_bind, hday, Option.some_bind]
      have hm : rfc2822Month (p2, rest) = none := by
        unfold rfc2822Month
        simp only []
        rw [scanSpace_digits rest hrestall]
      rw [hm]
      rfl
    unfold rfc2822Strategy
    rw [hrun]

/-- The RFC 2822 strategy fails on a hyphen-led string: the day number
scan rejects the hyphen. -/
theorem rfc2822_fail_neg (ds : List Char) : rfc2822Strategy ('-' :: ds) = .fail := by
  have hw : rfc2822Weekday ('-' :: ds) = some ({}, '-' :: ds) := by
    unfold rfc2822Weekday
    unfold trimLeft
    rw [List.dropWhile_cons]
    rw [show isWsCh '-' = false from rfl]
    simp only [Bool.false_eq_true, if_false]
    rw [scanShortOrLongWeekday_none_small '-' ds (by decide)]
  have hd : rfc2822Day ({}, '-' :: ds) = none := by
    unfold rfc2822Day
    dsimp only
    unfold trimLeft
    rw [List.dropWhile_cons]
    rw [show isWsCh '-' = false from rfl]
    simp only [Bool.false_eq_true, if_false]
    rw [scanNumber_none_head 1 2 '-' ds (by decide) (by omega)]
  unfold rfc2822Strategy parse_rfc2822Run
  rw [hw, Option.some_bind, hd]
  rfl

/-- The RFC 3339 strategy fails on every all-digit string: either the year
wants four digits, or the literal dash after it never matches. -/
theorem rfc3339_fail_digits (ds : List Char) (hall : ds.all isDigitCh = true) :
    rfc3339Strategy ds = .fail := by
  have hrun : parse_rfc3339Run ds = none := by
    unfold parse_rfc3339Run rfc3339Num
    by_cases hlen : ds.length < 4
    · rw [scanNumber_none_shortAll 4 4 ds hall hlen]
      rfl
    · push_neg at hlen
      have htall : (ds.take 4).all isDigitCh = true := all_digits_take 4 ds hall
      have htlen : (ds.take 4).length = 4 := by rw [List.length_take]; omega
      have hlt : natOfDigits (ds.take 4) < 10 ^ 4 := by
        have := natOfDigits_lt _ htall
        rwa [htlen] at this
      have hnum : scanNumber 4 4 ds = some ((natOfDigits (ds.take 4) : Int), ds.drop 4) := by
        have h0 := scanNumber_exact 4 (ds.take 4) (ds.drop 4) htall (by omega)
          (by unfold i64Max; omega)
        rw [htlen, List.take_append_drop] at h0
        exact h0
      rw [hnum]
      simp only []
      rw [show Parsed.setYear {} ((natOfDigits (ds.take 4) : Int)) =
          some { year := some ((natOfDigits (ds.take 4) : Int)) } from by
        unfold Parsed.setYear
        rw [if_neg (by omega)]]
      simp only [Option.map_some', Option.some_bind]
      have hlit : rfc3339Lit '-'
          (({ year := some ((natOfDigits (ds.take 4) : Int)) } : Parsed), ds.drop 4) = none := by
        unfold rfc3339Lit scanChar
        cases hdrop : ds.drop 4 with
        | nil => rfl
        | cons c2 cs2 =>
          have hc2 : isDigitCh c2 = true := by
            have hd := all_digits_drop 4 ds hall
            rw [hdrop] at hd
            exact all_digits_head _ _ hd
          simp only []
          rw [if_neg (digit_ne_minus c2 hc2)]
          rfl
      rw [hlit]
      rfl
  unfold rfc3339Strategy
  rw [hrun]

/-- The RFC 3339 strategy fails on a hyphen-led string. -/
theorem rfc3339_fail_neg (ds : List Char) : rfc3339Strategy ('-' :: ds) = .fail := by
  unfold rfc3339Strategy parse_rfc3339Run rfc3339Num
  rw [scanNumber_none_head 4 4 '-' ds (by decide) (by omega)]
  rfl

theorem scanNumber_all_or_none (mn : Nat) (ds : List Char) (hall : ds.all isDigitCh = true) :
    scanNumber mn ds.length ds = none ∨
      scanNumber mn ds.length ds = some ((natOfDigits ds : Int), []) := by
  unfold scanNumber
  rw [List.take_of_length_le (le_refl _)]
  have htw : ds.takeWhile isDigitCh = ds := by
    rw [List.takeWhile_eq_self_iff]
    intro x hx
    exact (List.all_eq_true.mp hall) x hx
  rw [htw]
  by_cases h1 : ds.length < mn
  · left
    rw [if_pos h1]
  · by_cases h2 : (natOfDigits ds : Int) > i64Max
    · left
      rw [if_neg h1, if_pos h2]
    · right
      rw [if_neg h1, if_neg h2]
      rw [List.drop_of_length_le (le_refl _)]

/-- The ISO-like strategies (formats starting `%Y-`) fail on every
all-digit string: the dash literal never matches. -/
theorem parse_dt_str_yearDash_digits (rest : List FItem) (ds : List Char)
    (hall : ds.all isDigitCh = true) (hne : ds ≠ []) :
    parse_dt_str (.year :: .lit '-' :: rest) ds = none := by
  unfold parse_dt_str formatParse
  unfold runItems
  by_cases hlen : ds.length ≤ 4
  · rw [runItem_year_digits {} ds hall hne hlen]
    have hval : natOfDigits ds < 10 ^ 4 := by
      have := natOfDigits_lt ds hall
      have hp : (10 : Nat) ^ ds.length ≤ 10 ^ 4 := Nat.pow_le_pow_right (by norm_num) hlen
      omega
    rw [show Parsed.setYear {} ((natOfDigits ds : Int)) =
        some { year := some ((natOfDigits ds : Int)) } from by
      unfold Parsed.setYear
      rw [if_neg (by omega)]]
    simp only [Option.map_some']
    unfold runItems runItem
    rfl
  · push_neg at hlen
    obtain ⟨c, cs, rfl⟩ := List.exists_cons_of_ne_nil hne
    unfold runItem
    rw [trimLeft_all_digits _ hall]
    have hc := all_digits_head c cs hall
    simp only []
    rw [if_neg (by simp [digit_ne_minus c hc]), if_neg (by simp [digit_ne_plus c hc])]
    have htall : ((c :: cs).take 4).all isDigitCh = true := all_digits_take 4 _ hall
    have htlen : ((c :: cs).take 4).length = 4 := by rw [List.length_take]; omega
    have hlt : natOfDigits ((c :: cs).take 4) < 10 ^ 4 := by
      have := natOfDigits_lt _ htall
      rwa [htlen] at this
    have hnum : scanNumber 1 4 (c :: cs) =
        some ((natOfDigits ((c :: cs).take 4) : Int), (c :: cs).drop 4) := by
      have h0 := scanNumber_exact 1 ((c :: cs).take 4) ((c :: cs).drop 4) htall (by omega)
        (by unfold i64Max; omega)
      rw [htlen, List.take_append_drop] at h0
      exact h0
    rw [hnum]
    simp only []
    rw [show Parsed.setYear {} ((natOfDigits ((c :: cs).take 4) : Int)) =
        some { year := some ((natOfDigits ((c :: cs).take 4) : Int)) } from by
      unfold Parsed.setYear
      rw [if_neg (by omega)]]
    simp only [Option.map_some']
    unfold runItems runItem
    have hlit : scanChar '-' ((c :: cs).drop 4) = none := by
      unfold scanChar
      cases hdrop : (c :: cs).drop 4 with
      | nil => rfl
      | cons c2 cs2 =>
        have hc2 : isDigitCh c2 = true := by
          have hd := all_digits_drop 4 _ hall
          rw [hdrop] at hd
          exact all_digits_head _ _ hd
        simp only []
        rw [if_neg (digit_ne_minus c2 hc2)]
    simp only []
    rw [show (match (c :: cs).drop 4 with
        | [] => none
        | c2 :: rest2 => if c2 = '-' then some (({ year := some ((natOfDigits ((c :: cs).take 4) : Int)) } : Parsed), rest2) else none) =
        (none : Option (Parsed × List Char)) from by
      cases hdrop : (c :: cs).drop 4 with
      | nil => rfl
      | cons c2 cs2 =>
        have hc2 : isDigitCh c2 = true := by
          have hd := all_digits_drop 4 _ hall
          rw [hdrop] at hd
          exact all_digits_head _ _ hd
        simp only []
        rw [if_neg (digit_ne_minus c2 hc2)]]

/-- The ISO-like strategies fail on a hyphen-led string: the signed year
consumes every digit and the dash literal then sees the end of input (or
the year does not fit and the scan fails). -/
theorem parse_dt_str_yearDash_neg (rest : List FItem) (ds : List Char)
    (hall : ds.all isDigitCh = true) :
    parse_dt_str (.year :: .lit '-' :: rest) ('-' :: ds) = none := by
  unfold parse_dt_str formatParse
  unfold runItems
  unfold runItem
  have htrim : trimLeft ('-' :: ds) = '-' :: ds := by
    unfold trimLeft
    rw [List.dropWhile_cons]
    rw [show isWsCh '-' = false from rfl]
    simp
  rw [htrim]
  simp only []
  rw [if_pos (by simp)]
  rcases scanNumber_all_or_none 1 ds hall with hn | hn
  · rw [hn]
    rfl
  · rw [hn]
    simp only [Option.map_some']
    unfold Parsed.setYear
    by_cases hbig : -(natOfDigits ds : Int) < -2147483648 ∨ 2147483647 < -(natOfDigits ds : Int)
    · rw [if_pos hbig]
      rfl
    · rw [if_neg hbig]
      simp only [Option.map_some']
      unfold runItems runItem
      rfl

/-! ## C2 machinery: the integer strategy succeeds in range -/

theorem i64FromStr_decString (s : Int) (h1 : i64Min ≤ s) (h2 : s ≤ i64Max) :
    i64FromStr (decString s) = some s := by
  unfold i64Min at h1
  unfold i64Max at h2
  by_cases hs : s < 0
  · obtain ⟨hall, hnof, hne, _⟩ := decDigits_spec s.natAbs (by omega)
    unfold decString
    rw [if_pos hs]
    unfold i64FromStr
    simp only []
    rw [if_true, if_pos ⟨hne, hall⟩, hnof]
    simp only [Option.some_bind]
    rw [if_neg (by unfold i64Min i64Max; omega)]
    congr 1
    omega
  · obtain ⟨hall, hnof, hne, _⟩ := decDigits_spec s.toNat (by omega)
    unfold decString
    rw [if_neg hs]
    obtain ⟨c, cs, hcons⟩ := List.exists_cons_of_ne_nil hne
    rw [hcons] at hall hnof
    rw [hcons]
    unfold i64FromStr
    simp only []
    have hc : isDigitCh c = true := all_digits_head c cs hall
    rw [if_neg (digit_ne_minus c hc), if_neg (digit_ne_plus c hc)]
    rw [if_pos hall, hnof]
    simp only [Option.some_bind]
    rw [if_neg (by unfold i64Min i64Max; omega)]
    congr 1
    omega

theorem cycleToYo_fst_le (cycle : Nat) : (cycleToYo cycle).1 ≤ cycle / 365 := by
  unfold cycleToYo
  simp only []
  split
  · simp
  · simp

/-- `from_num_days_from_ce_opt` succeeds on every day number in a wide
nonnegative band (covering years 0 through well past 9999). -/
theorem fromNumDays_isSome_of (days : Int) (h1 : 0 ≤ days + 365)
    (h2 : days + 365 < 87658200) : (fromNumDays days).isSome = true := by
  unfold fromNumDays
  simp only []
  rw [Int.fdiv_eq_ediv _ (by norm_num), Int.fmod_eq_emod _ (by norm_num)]
  rw [if_neg]
  · rfl
  · have hc : (cycleToYo ((days + 365) % 146097).toNat).1 ≤
        ((days + 365) % 146097).toNat / 365 := cycleToYo_fst_le _
    have hm0 : (0 : Int) ≤ (days + 365) % 146097 :=
      Int.emod_nonneg _ (by norm_num)
    have hmlt : (days + 365) % 146097 < 146097 :=
      Int.emod_lt_of_pos _ (by norm_num)
    have h365 : ((days + 365) % 146097).toNat / 365 ≤ 400 := by omega
    have hera0 : 0 ≤ (days + 365) / 146097 := Int.ediv_nonneg h1 (by norm_num)
    have hera : (days + 365) / 146097 ≤ 599 := by omega
    set y := (cycleToYo ((days + 365) % 146097).toNat).1 with hy
    push_neg
    constructor <;> omega

/-- In-range integers resolve through `parse_i64` as seconds with no
subsecond part. -/
theorem parse_i64_inrange (s : Int) (h1 : LOWER_BOUND < s) (h2 : s < UPPER_BOUND) :
    parse_i64 (decString s) = .ok ⟨s, 0⟩ := by
  rw [LOWER_BOUND_eq] at h1
  rw [UPPER_BOUND_eq] at h2
  unfold parse_i64
  rw [i64FromStr_decString s (by unfold i64Min; omega) (by unfold i64Max; omega)]
  simp only []
  unfold parse_i64_num
  rw [if_pos (by rw [LOWER_BOUND_eq, UPPER_BOUND_eq]; exact ⟨h2, h1⟩)]
  unfold from_timestamp_opt
  rw [if_pos]
  · rfl
  · refine ⟨by norm_num, ?_⟩
    have hdiv : s.fdiv 86400 = s / 86400 := Int.fdiv_eq_ediv s (by norm_num)
    rw [hdiv]
    apply fromNumDays_isSome_of <;> omega

/-! ## Generalities about the strategy cascade -/

theorem dtLt_def (a b : DT) :
    a < b ↔ (a.secs < b.secs ∨ (a.secs = b.secs ∧ a.nsecs < b.nsecs)) := Iff.rfl

theorem dtLt_irrefl (a : DT) : ¬ a < a := by
  rw [dtLt_def]; omega

theorem runStrategies_fail_iff (ps : List (List Char → PResult)) (s : List Char) :
    runStrategies ps s = .fail ↔ ∀ p ∈ ps, p s = .fail := by
  induction ps with
  | nil => simp [runStrategies]
  | cons p ps ih =>
    simp only [runStrategies, List.forall_mem_cons, ← ih]
    cases h : p s with
    | ok t => simp
    | crash => simp
    | fail => simp

theorem runStrategies_cons_fail (p : List Char → PResult)
    (ps : List (List Char → PResult)) (s : List Char) (h : p s = .fail) :
    runStrategies (p :: ps) s = runStrategies ps s := by
  simp [runStrategies, h]

theorem runStrategies_first (ps : List (List Char → PResult)) (s : List Char)
    (i : Nat) (hi : i < ps.length) (t : DT)
    (hok : ps.get ⟨i, hi⟩ s = .ok t)
    (hprev : ∀ (j : Nat) (hj : j < i), ps.get ⟨j, by omega⟩ s = .fail) :
    runStrategies ps s = .ok t := by
  induction ps generalizing i with
  | nil => exact absurd hi (by simp)
  | cons p ps ih =>
    cases i with
    | zero =>
      simp only [List.get] at hok
      simp [runStrategies, hok]
    | succ n =>
      have h0 : p s = .fail := hprev 0 (Nat.succ_pos n)
      rw [runStrategies_cons_fail p ps s h0]
      exact ih n (by simpa using hi) (by simpa using hok)
        (fun j hj => by simpa using hprev (j + 1) (by omega))

/-- C1: `parse` has exactly the eleven strategies of the spec, tried in the
listed fixed order; for every input string it returns the result of the
first strategy that succeeds (all earlier ones failing), and it reports
failure exactly when every strategy fails. -/
theorem C1_cascade_first_success (s : List Char) :
    strategies.length = 11 ∧
    (parse s = .fail ↔ ∀ p ∈ strategies, p s = .fail) ∧
    (∀ (i : Nat) (hi : i < strategies.length) (t : DT),
      strategies.get ⟨i, hi⟩ s = .ok t →
      (∀ (j : Nat) (hj : j < i), strategies.get ⟨j, by omega⟩ s = .fail) →
      parse s = .ok t) := by
  refine ⟨rfl, runStrategies_fail_iff strategies s, ?_⟩
  intro i hi t hok hprev
  exact runStrategies_first strategies s i hi t hok hprev

theorem C1_cascade_first_success_witness :
    parse "2000".data = .ok ⟨946684800, 0⟩ ∧ parse "not-a-date".data = .fail := by
  constructor
  · exact (C1_cascade_first_success "2000".data).2.2 0 (by decide) ⟨946684800, 0⟩
      (by decide) (fun j hj => absurd hj (Nat.not_lt_zero j))
  · exact (C1_cascade_first_success "not-a-date".data).2.1.mpr (by decide)

/-- C6: every strategy built on `parse_dt_str` (the five calendar formats
and the two ISO-like formats) range-checks the constructed instant — any
returned instant lies strictly between the bounds, so an out-of-range
construction is a strategy failure; and a failed strategy defers to the
remaining strategies of the cascade. -/
theorem C6_calendar_range_check :
    (∀ (items : List FItem) (s : List Char) (dt : DT), parse_dt_str items s = some dt →
      LOWER_BOUND < dt.secs ∧ dt.secs < UPPER_BOUND) ∧
    (∀ (p : List Char → PResult) (ps : List (List Char → PResult)) (s : List Char),
      p s = .fail → runStrategies (p :: ps) s = runStrategies ps s) := by
  constructor
  · intro items s dt h
    unfold parse_dt_str at h
    split at h
    · exact absurd h (by simp)
    · dsimp only at h
      split at h
      · split at h
        · cases h
          assumption
        · exact absurd h (by simp)
      · exact absurd h (by simp)
  · exact runStrategies_cons_fail

theorem C6_calendar_range_check_witness :
    parse_dt_str fmtYmd "20230715".data = some ⟨1689379200, 0⟩ ∧
    LOWER_BOUND < (1689379200 : Int) ∧ (1689379200 : Int) < UPPER_BOUND :=
  ⟨by decide, C6_calendar_range_check.1 fmtYmd "20230715".data ⟨1689379200, 0⟩ (by decide)⟩

/-! ## C2 (amended): the integer-seconds property off the calendar formats -/

/-- C2 (amended): for every in-range integer s whose decimal string is not
claimed by any of the five calendar strategies (which run first), resolving
the string gives the instant s seconds since the epoch with zero
milliseconds remainder. -/
theorem C2_integer_seconds (s : Int) (h1 : LOWER_BOUND < s) (h2 : s < UPPER_BOUND)
    (hc1 : parse_dt_str fmtY (decString s) = none)
    (hc2 : parse_dt_str fmtYm (decString s) = none)
    (hc3 : parse_dt_str fmtYmd (decString s) = none)
    (hc4 : parse_dt_str fmtYmdH (decString s) = none)
    (hc5 : parse_dt_str fmtYmdHM (decString s) = none) :
    parse (decString s) = .ok ⟨s, 0⟩ ∧ DT.timestampMillis ⟨s, 0⟩ = s * 1000 := by
  have hsN : -2208988800 < s ∧ s < 16725225600 := by
    rw [LOWER_BOUND_eq] at h1
    rw [UPPER_BOUND_eq] at h2
    exact ⟨h1, h2⟩
  have hshape : (∃ ds, decString s = '-' :: ds ∧ ds.all isDigitCh = true) ∨
      ((decString s).all isDigitCh = true ∧ decString s ≠ []) := by
    unfold decString
    by_cases hs : s < 0
    · rw [if_pos hs]
      obtain ⟨hall, _, _, _⟩ := decDigits_spec s.natAbs (by omega)
      exact Or.inl ⟨_, rfl, hall⟩
    · rw [if_neg hs]
      obtain ⟨hall, _, hne, _⟩ := decDigits_spec s.toNat (by omega)
      exact Or.inr ⟨hall, hne⟩
  have h2822 : rfc2822Strategy (decString s) = .fail := by
    rcases hshape with ⟨ds, hds, _⟩ | ⟨hall, _⟩
    · rw [hds]
      exact rfc2822_fail_neg ds
    · exact rfc2822_fail_digits _ hall
  have h3339 : rfc3339Strategy (decString s) = .fail := by
    rcases hshape with ⟨ds, hds, _⟩ | ⟨hall, _⟩
    · rw [hds]
      exact rfc3339_fail_neg ds
    · exact rfc3339_fail_digits _ hall
  have hisoSec : fmtIsoSec = FItem.year :: FItem.lit '-' ::
      [FItem.month, FItem.lit '-', FItem.day, FItem.lit 'T', FItem.hour,
       FItem.lit ':', FItem.minute, FItem.lit ':', FItem.second] := rfl
  have hisoMin : fmtIsoMin = FItem.year :: FItem.lit '-' ::
      [FItem.month, FItem.lit '-', FItem.day, FItem.lit 'T', FItem.hour,
       FItem.lit ':', FItem.minute] := rfl
  have hiso1 : parse_dt_str fmtIsoSec (decString s) = none := by
    rw [hisoSec]
    rcases hshape with ⟨ds, hds, hall⟩ | ⟨hall, hne⟩
    · rw [hds]
      exact parse_dt_str_yearDash_neg _ ds hall
    · exact parse_dt_str_yearDash_digits _ _ hall hne
  have hiso2 : parse_dt_str fmtIsoMin (decString s) = none := by
    rw [hisoMin]
    rcases hshape with ⟨ds, hds, hall⟩ | ⟨hall, hne⟩
    · rw [hds]
      exact parse_dt_str_yearDash_neg _ ds hall
    · exact parse_dt_str_yearDash_digits _ _ hall hne
  have hi64 := parse_i64_inrange s h1 h2
  constructor
  · unfold parse strategies
    rw [runStrategies_cons_fail _ _ _ (by unfold liftOpt; rw [hc1]),
      runStrategies_cons_fail _ _ _ (by unfold liftOpt; rw [hc2]),
      runStrategies_cons_fail _ _ _ (by unfold liftOpt; rw [hc3]),
      runStrategies_cons_fail _ _ _ (by unfold liftOpt; rw [hc4]),
      runStrategies_cons_fail _ _ _ (by unfold liftOpt; rw [hc5]),
      runStrategies_cons_fail _ _ _ h2822,
      runStrategies_cons_fail _ _ _ h3339,
      runStrategies_cons_fail _ _ _ (by unfold liftOpt; rw [hiso1]),
      runStrategies_cons_fail _ _ _ (by unfold liftOpt; rw [hiso2])]
    unfold runStrategies
    rw [hi64]
  · unfold DT.timestampMillis
    simp

theorem C2_integer_seconds_witness :
    LOWER_BOUND < (123456 : Int) ∧ (123456 : Int) < UPPER_BOUND ∧
    (parse (decString 123456) = .ok ⟨123456, 0⟩ ∧
      DT.timestampMillis ⟨123456, 0⟩ = 123456 * 1000) :=
  ⟨by decide, by decide,
    C2_integer_seconds 123456 (by decide) (by decide) (by decide) (by decide)
      (by decide) (by decide) (by decide)⟩

/-! ## C7 machinery: the 400-year cycle and the year/ordinal bijection -/

set_option maxRecDepth 40000 in
theorem yearDeltas_le : ∀ y < 401, yearDeltas y ≤ 97 := by decide

set_option maxRecDepth 40000 in
theorem yearDeltas_step : ∀ y < 400,
    yearDeltas y ≤ yearDeltas (y + 1) ∧ yearDeltas (y + 1) ≤ yearDeltas y + 1 := by decide

set_option maxRecDepth 40000 in
theorem yearDeltas_leap : ∀ y < 400,
    yearDeltas (y + 1) = yearDeltas y + (if isLeapYear (y : Int) = true then 1 else 0) := by
  decide

theorem isLeapYear_mod400 (era : Int) (y0 : Nat) :
    isLeapYear (era * 400 + (y0 : Int)) = isLeapYear (y0 : Int) := by
  unfold isLeapYear
  have h4 : Int.emod (era * 400 + (y0 : Int)) 4 = Int.emod (y0 : Int) 4 := by
    have h : (era * 400 + (y0 : Int)) % 4 = (y0 : Int) % 4 := by omega
    exact h
  have h100 : Int.emod (era * 400 + (y0 : Int)) 100 = Int.emod (y0 : Int) 100 := by
    have h : (era * 400 + (y0 : Int)) % 100 = (y0 : Int) % 100 := by omega
    exact h
  have h400 : Int.emod (era * 400 + (y0 : Int)) 400 = Int.emod (y0 : Int) 400 := by
    have h : (era * 400 + (y0 : Int)) % 400 = (y0 : Int) % 400 := by omega
    exact h
  rw [h4, h100, h400]

/-- Full characterization of `cycleToYo` on a cycle position: the
year-in-cycle is below 400, the ordinal is 1-based and within the year
length given by the `yearDeltas` table, and year/ordinal recombine to the
cycle position. -/
theorem cycleToYo_spec (cycle : Nat) (h : cycle < 146097) :
    (cycleToYo cycle).1 ≤ 399 ∧ 1 ≤ (cycleToYo cycle).2 ∧
      (cycleToYo cycle).2 + yearDeltas (cycleToYo cycle).1 ≤
        365 + yearDeltas ((cycleToYo cycle).1 + 1) ∧
      365 * (cycleToYo cycle).1 + yearDeltas (cycleToYo cycle).1 + (cycleToYo cycle).2 =
        cycle + 1 := by
  unfold cycleToYo
  simp only []
  by_cases hlt : cycle % 365 < yearDeltas (cycle / 365)
  · rw [if_pos hlt]
    simp only []
    have hy1 : 1 ≤ cycle / 365 := by
      by_contra hy0
      have h0 : cycle / 365 = 0 := by omega
      rw [h0] at hlt
      have hz : yearDeltas 0 = 0 := by decide
      omega
    have he : cycle / 365 - 1 + 1 = cycle / 365 := by omega
    have hstep := yearDeltas_step (cycle / 365 - 1) (by omega)
    rw [he] at hstep
    have hle1 := yearDeltas_le (cycle / 365 - 1) (by omega)
    have hle2 := yearDeltas_le (cycle / 365) (by omega)
    rw [he]
    refine ⟨by omega, by omega, by omega, by omega⟩
  · rw [if_neg hlt]
    simp only []
    have h97 : yearDeltas 400 = 97 := by decide
    have hy399 : cycle / 365 ≤ 399 := by
      by_contra hc
      have h400 : cycle / 365 = 400 := by omega
      rw [h400] at hlt
      omega
    have hstep := yearDeltas_step (cycle / 365) (by omega)
    have hle2 := yearDeltas_le (cycle / 365) (by omega)
    refine ⟨hy399, by omega, by omega, by omega⟩

/-- `num_days_from_ce` of year `400 * era + y0` (era nonnegative) in terms
of the cycle decomposition: days of whole eras, whole years in the cycle,
leap days from the table, and the ordinal. -/
theorem daysFromCE_decomp (era : Int) (y0 ord : Nat) (h1 : 0 ≤ era) (h2 : y0 ≤ 399)
    (h3 : 1 ≤ ord) :
    daysFromCE (era * 400 + (y0 : Int)) ord =
      146097 * era + 365 * (y0 : Int) + (yearDeltas y0 : Int) + (ord : Int) - 366 := by
  by_cases h0 : era = 0 ∧ y0 = 0
  · obtain ⟨he, hy⟩ := h0
    subst he
    subst hy
    unfold daysFromCE yearDeltas
    simp only []
    rw [if_pos (by omega)]
    rw [Int.tdiv_eq_ediv (by omega) (by omega)]
    rw [Int.tdiv_eq_ediv (by omega) (by omega)]
    rw [Int.tdiv_eq_ediv (by omega) (by omega)]
    rw [Int.tdiv_eq_ediv (by omega) (by omega)]
    omega
  · have hy1 : (1 : Int) ≤ era * 400 + (y0 : Int) := by
      rcases not_and_or.mp h0 with hne | hne
      · omega
      · omega
    unfold daysFromCE yearDeltas
    simp only []
    rw [if_neg (by omega)]
    rw [Int.tdiv_eq_ediv (by omega) (by omega)]
    rw [Int.tdiv_eq_ediv (by omega) (by omega)]
    rw [Int.tdiv_eq_ediv (by omega) (by omega)]
    have he14 : (era * 400 + (y0 : Int) - 1 + 0 * 400) * 1461 / 4 =
        365 * (era * 400 + (y0 : Int) - 1 + 0 * 400) +
          (era * 400 + (y0 : Int) - 1 + 0 * 400) / 4 := by omega
    have hA4 : (era * 400 + (y0 : Int) - 1 + 0 * 400) / 4 =
        100 * era + ((y0 : Int) + 3) / 4 - 1 := by omega
    have hA100 : (era * 400 + (y0 : Int) - 1 + 0 * 400) / 100 =
        4 * era + ((y0 : Int) + 99) / 100 - 1 := by omega
    have hA400 : (era * 400 + (y0 : Int) - 1 + 0 * 400) / 400 =
        era + ((y0 : Int) + 399) / 400 - 1 := by omega
    omega

/-- `from_num_days_from_ce_opt` on day numbers of the years 0-9999
(day -365 is 0000-01-01, day 3652059 is 9999-12-31): it succeeds, and the
returned year/ordinal map back to the day number through
`num_days_from_ce`, with the ordinal inside the year length. -/
theorem fromNumDays_spec (days : Int) (h1 : -365 ≤ days) (h2 : days < 3652060) :
    ∃ (era : Int) (y0 ord : Nat), fromNumDays days = some (era * 400 + (y0 : Int), ord) ∧
      0 ≤ era ∧ era ≤ 24 ∧ y0 ≤ 399 ∧ 1 ≤ ord ∧
      ord + yearDeltas y0 ≤ 365 + yearDeltas (y0 + 1) ∧
      daysFromCE (era * 400 + (y0 : Int)) ord = days := by
  have hclt : ((days + 365) % 146097).toNat < 146097 := by omega
  obtain ⟨hy399, hord1, hordle, hsum⟩ := cycleToYo_spec _ hclt
  have hera0 : 0 ≤ (days + 365) / 146097 := by omega
  have hera24 : (days + 365) / 146097 ≤ 24 := by omega
  refine ⟨(days + 365) / 146097, (cycleToYo ((days + 365) % 146097).toNat).1,
    (cycleToYo ((days + 365) % 146097).toNat).2, ?_, hera0, hera24, hy399, hord1, hordle, ?_⟩
  · unfold fromNumDays
    simp only []
    rw [Int.fdiv_eq_ediv _ (by norm_num), Int.fmod_eq_emod _ (by norm_num)]
    rw [if_neg (by omega)]
  · rw [daysFromCE_decomp _ _ _ hera0 hy399 hord1]
    omega

set_option maxRecDepth 40000 in
/-- Inverse of `ordToMd` over both year shapes: the month is in 1-12, the
day is in 1-31 and within the month length, and month/day recombine to the
ordinal. -/
theorem ordToMd_spec : ∀ leap : Bool, ∀ ord < 367, 1 ≤ ord →
    ord ≤ 365 + (if leap then 1 else 0) →
    1 ≤ (ordToMd leap ord).1 ∧ (ordToMd leap ord).1 ≤ 12 ∧
      1 ≤ (ordToMd leap ord).2 ∧ (ordToMd leap ord).2 ≤ 31 ∧
      (ordToMd leap ord).2 ≤ monthLen leap (ordToMd leap ord).1 ∧
      cumMonthDays leap (ordToMd leap ord).1 + (ordToMd leap ord).2 = ord := by
  decide

/-! ## C7 machinery: printing and rescanning zero-padded fields -/

theorem replicate_zero_all (k : Nat) : (List.replicate k '0').all isDigitCh = true := by
  rw [List.all_eq_true]
  intro x hx
  rw [List.eq_of_mem_replicate hx]
  decide

theorem natOfDigits_replicate_zero (k : Nat) : natOfDigits (List.replicate k '0') = 0 := by
  induction k with
  | zero => rfl
  | succ n ih =>
    rw [List.replicate_succ, natOfDigits_cons, ih]
    rw [show digitVal '0' = 0 from rfl]
    simp

/-- A zero-padded field of width `w` is `w` digits whose value reads back
as the padded number. -/
theorem padZ_spec (w n : Nat) (h : n < 10 ^ w) (hw1 : 1 ≤ w) (hw : w ≤ 29) :
    (padZ w n).all isDigitCh = true ∧ natOfDigits (padZ w n) = n ∧ (padZ w n).length = w := by
  have h30 : n < 10 ^ 30 := lt_of_lt_of_le h (Nat.pow_le_pow_right (by norm_num) (by omega))
  obtain ⟨hall, hnat, hne, hlt⟩ := decDigits_spec n h30
  have hlenle : (decDigits n).length ≤ w := by
    by_cases h0 : n = 0
    · subst h0
      rw [show decDigits 0 = ['0'] from by decide]
      simpa using hw1
    · have hlow : 10 ^ ((decDigits n).length - 1) ≤ n :=
        decDigitsAux_len_lower 30 n h30 (by omega)
      by_contra hc
      push_neg at hc
      have hp : 10 ^ w ≤ 10 ^ ((decDigits n).length - 1) :=
        Nat.pow_le_pow_right (by norm_num) (by omega)
      omega
  refine ⟨?_, ?_, ?_⟩
  · unfold padZ
    simp only []
    rw [List.all_append]
    rw [replicate_zero_all, hall]
    rfl
  · unfold padZ
    simp only []
    rw [natOfDigits_append, natOfDigits_replicate_zero, hnat]
    simp
  · unfold padZ
    simp only []
    rw [List.length_append, List.length_replicate]
    omega

/-- Scanning a width-`w` numeric field over exactly the `w` digits printed
for it recovers the printed value. -/
theorem scanNumber_padZ (w n : Nat) (rest : List Char) (h : n < 10 ^ w) (hw1 : 1 ≤ w)
    (hw : w ≤ 9) :
    scanNumber w w (padZ w n ++ rest) = some (((n : Nat) : Int), rest) := by
  obtain ⟨hall, hnat, hlen⟩ := padZ_spec w n h hw1 (by omega)
  have hval : (natOfDigits (padZ w n) : Int) ≤ i64Max := by
    rw [hnat]
    have hp : (10 : Nat) ^ w ≤ 10 ^ 9 := Nat.pow_le_pow_right (by norm_num) hw
    unfold i64Max
    omega
  have hx := scanNumber_exact w (padZ w n) rest hall (by omega) hval
  rw [hlen] at hx
  rw [hx, hnat]

theorem rfc3339Lit_cons (ch : Char) (p : Parsed) (rest : List Char) :
    rfc3339Lit ch (p, ch :: rest) = some (p, rest) := by
  unfold rfc3339Lit scanChar
  simp

/-- `scan::nanosecond` on a printed fraction block of `k` digits followed by
a non-digit scales the value to nanoseconds. -/
theorem scanNanosecond_padZ (k v : Nat) (c : Char) (rest : List Char) (hk1 : 1 ≤ k)
    (hk : k ≤ 9) (hv : v < 10 ^ k) (hc : isDigitCh c = false) :
    scanNanosecond (padZ k v ++ c :: rest) =
      some (((v * 10 ^ (9 - k) : Nat) : Int), c :: rest) := by
  obtain ⟨hall, hnat, hlen⟩ := padZ_spec k v hv hk1 (by omega)
  unfold scanNanosecond
  have htake : (padZ k v ++ c :: rest).take 9 = padZ k v ++ (c :: rest).take (9 - k) := by
    rw [List.take_append_eq_append_take, List.take_of_length_le (by omega)]
    rw [hlen]
  rw [htake]
  have htw : (padZ k v ++ (c :: rest).take (9 - k)).takeWhile isDigitCh = padZ k v := by
    rw [List.takeWhile_append]
    have hds : (padZ k v).takeWhile isDigitCh = padZ k v := by
      rw [List.takeWhile_eq_self_iff]
      intro x hx
      exact (List.all_eq_true.mp hall) x hx
    rw [if_pos (by rw [hds])]
    cases hk9 : 9 - k with
    | zero => simp
    | succ k2 =>
      simp only [List.take_succ_cons, List.takeWhile_cons, hc]
      simp
  rw [htw]
  rw [if_neg (by omega)]
  rw [List.drop_left]
  rw [List.dropWhile_cons]
  rw [hc]
  simp only [Bool.false_eq_true, if_false]
  rw [hnat, hlen]

/-! ## C7 machinery: the earlier strategies fail on an RFC 3339 rendering -/

/-- The `%Y`-only strategy fails on four digits followed by a dash: the year
item consumes the digits and the dash is trailing input (TOO_LONG). -/
theorem parse_dt_str_fmtY_padded (ds rest : List Char) (hall : ds.all isDigitCh = true)
    (hne : ds ≠ []) (hlen : ds.length ≤ 4) :
    parse_dt_str fmtY (ds ++ '-' :: rest) = none := by
  obtain ⟨c, cs, rfl⟩ := List.exists_cons_of_ne_nil hne
  have hc := all_digits_head c cs hall
  have hval : (natOfDigits (c :: cs) : Int) ≤ i64Max := by
    have hl := natOfDigits_lt (c :: cs) hall
    have hp : (10 : Nat) ^ (c :: cs).length ≤ 10 ^ 4 :=
      Nat.pow_le_pow_right (by norm_num) hlen
    unfold i64Max
    omega
  have hnum : scanNumber 1 4 (c :: (cs ++ '-' :: rest)) =
      some ((natOfDigits (c :: cs) : Int), '-' :: rest) := by
    have h0 := scanNumber_stop 1 4 (c :: cs) '-' rest hall (by simp) hlen (by decide) hval
    simpa using h0
  unfold parse_dt_str formatParse fmtY
  unfold runItems
  unfold runItem
  have htrim : trimLeft ((c :: cs) ++ '-' :: rest) = c :: (cs ++ '-' :: rest) := by
    rw [List.cons_append]
    unfold trimLeft
    rw [List.dropWhile_cons]
    rw [isWsCh_eq_false c ((isDigitCh_iff c).mp hc).1]
    simp
  rw [htrim]
  simp only []
  rw [if_neg (by simp [digit_ne_minus c hc]), if_neg (by simp [digit_ne_plus c hc])]
  rw [hnum]
  simp only []
  rw [show Parsed.setYear {} ((natOfDigits (c :: cs) : Int)) =
      some { year := some ((natOfDigits (c :: cs) : Int)) } from by
    unfold Parsed.setYear
    have hl := natOfDigits_lt (c :: cs) hall
    have hp : (10 : Nat) ^ (c :: cs).length ≤ 10 ^ 4 :=
      Nat.pow_le_pow_right (by norm_num) hlen
    rw [if_neg (by omega)]]
  simp only [Option.map_some']
  unfold runItems
  rfl

/-- The calendar strategies whose format starts `%Y%m` fail on four digits
followed by a dash: the year consumes the digits and the month item then
rejects the dash. -/
theorem parse_dt_str_yearMonth_padded (restI : List FItem) (ds rest : List Char)
    (hall : ds.all isDigitCh = true) (hne : ds ≠ []) (hlen : ds.length ≤ 4) :
    parse_dt_str (.year :: .month :: restI) (ds ++ '-' :: rest) = none := by
  obtain ⟨c, cs, rfl⟩ := List.exists_cons_of_ne_nil hne
  have hc := all_digits_head c cs hall
  have hval : (natOfDigits (c :: cs) : Int) ≤ i64Max := by
    have hl := natOfDigits_lt (c :: cs) hall
    have hp : (10 : Nat) ^ (c :: cs).length ≤ 10 ^ 4 :=
      Nat.pow_le_pow_right (by norm_num) hlen
    unfold i64Max
    omega
  have hnum : scanNumber 1 4 (c :: (cs ++ '-' :: rest)) =
      some ((natOfDigits (c :: cs) : Int), '-' :: rest) := by
    have h0 := scanNumber_stop 1 4 (c :: cs) '-' rest hall (by simp) hlen (by decide) hval
    simpa using h0
  unfold parse_dt_str formatParse
  unfold runItems
  unfold runItem
  have htrim : trimLeft ((c :: cs) ++ '-' :: rest) = c :: (cs ++ '-' :: rest) := by
    rw [List.cons_append]
    unfold trimLeft
    rw [List.dropWhile_cons]
    rw [isWsCh_eq_false c ((isDigitCh_iff c).mp hc).1]
    simp
  rw [htrim]
  simp only []
  rw [if_neg (by simp [digit_ne_minus c hc]), if_neg (by simp [digit_ne_plus c hc])]
  rw [hnum]
  simp only []
  rw [show Parsed.setYear {} ((natOfDigits (c :: cs) : Int)) =
      some { year := some ((natOfDigits (c :: cs) : Int)) } from by
    unfold Parsed.setYear
    have hl := natOfDigits_lt (c :: cs) hall
    have hp : (10 : Nat) ^ (c :: cs).length ≤ 10 ^ 4 :=
      Nat.pow_le_pow_right (by norm_num) hlen
    rw [if_neg (by omega)]]
  simp only [Option.map_some']
  unfold runItems
  unfold runItem
  have htrim2 : trimLeft ('-' :: rest) = '-' :: rest := by
    unfold trimLeft
    rw [List.dropWhile_cons]
    rw [show isWsCh '-' = false from rfl]
    simp
  rw [htrim2]
  simp only []
  rw [scanNumber_none_head 1 2 '-' rest (by decide) (by omega)]
  rfl

/-- The RFC 2822 strategy fails on four digits followed by a dash: the day
number takes two digits and the mandatory space before the month name then
meets a digit. -/
theorem rfc2822_fail_fourDigits (ds rest : List Char) (hall : ds.all isDigitCh = true)
    (hlen : ds.length = 4) :
    rfc2822Strategy (ds ++ '-' :: rest) = .fail := by
  have hne : ds ≠ [] := by
    intro h
    rw [h] at hlen
    simp at hlen
  obtain ⟨a, t1, rfl⟩ := List.exists_cons_of_ne_nil hne
  simp only [List.length_cons] at hlen
  have hne1 : t1 ≠ [] := by
    intro h
    rw [h] at hlen
    simp at hlen
  obtain ⟨b, t2, rfl⟩ := List.exists_cons_of_ne_nil hne1
  simp only [List.length_cons] at hlen
  have hne2 : t2 ≠ [] := by
    intro h
    rw [h] at hlen
    simp at hlen
  obtain ⟨c, t3, rfl⟩ := List.exists_cons_of_ne_nil hne2
  simp only [List.length_cons] at hlen
  have hne3 : t3 ≠ [] := by
    intro h
    rw [h] at hlen
    simp at hlen
  obtain ⟨d, t4, rfl⟩ := List.exists_cons_of_ne_nil hne3
  simp only [List.length_cons] at hlen
  have ht4 : t4 = [] := List.length_eq_zero.mp (by omega)
  subst ht4
  simp only [List.all_cons, Bool.and_eq_true] at hall
  obtain ⟨ha, hb, hc, hd, _⟩ := hall
  simp only [List.cons_append, List.nil_append]
  have hsmall : a.toNat < 65 := by
    have := (isDigitCh_iff a).mp ha
    omega
  have htrim : trimLeft (a :: b :: c :: d :: '-' :: rest) =
      a :: b :: c :: d :: '-' :: rest := by
    unfold trimLeft
    rw [List.dropWhile_cons]
    rw [isWsCh_eq_false a ((isDigitCh_iff a).mp ha).1]
    simp
  have hw : rfc2822Weekday (a :: b :: c :: d :: '-' :: rest) =
      some ({}, a :: b :: c :: d :: '-' :: rest) := by
    unfold rfc2822Weekday
    rw [htrim]
    simp only []
    rw [scanShortOrLongWeekday_none_small a _ hsmall]
  have hall2 : ([a, b]).all isDigitCh = true := by
    simp only [List.all_cons, Bool.and_eq_true]
    exact ⟨ha, hb, rfl⟩
  have hlt : natOfDigits [a, b] < 100 := by
    have := natOfDigits_lt [a, b] hall2
    simpa using this
  have hnum : scanNumber 1 2 (a :: b :: c :: d :: '-' :: rest) =
      some ((natOfDigits [a, b] : Int), c :: d :: '-' :: rest) := by
    have h0 := scanNumber_exact 1 [a, b] (c :: d :: '-' :: rest) hall2 (by simp)
      (by unfold i64Max; omega)
    simpa using h0
  have hday : rfc2822Day ({}, a :: b :: c :: d :: '-' :: rest) =
      some ({ day := some ((natOfDigits [a, b] : Int)).toNat }, c :: d :: '-' :: rest) := by
    unfold rfc2822Day
    dsimp only
    rw [htrim, hnum]
    simp only []
    rw [setDay_empty _ (by omega) (by omega)]
    rfl
  have hm : rfc2822Month
      (({ day := some ((natOfDigits [a, b] : Int)).toNat } : Parsed),
        c :: d :: '-' :: rest) = none := by
    unfold rfc2822Month
    simp only []
    rw [show scanSpace (c :: d :: '-' :: rest) = none from by
      unfold scanSpace
      simp only []
      rw [isWsCh_eq_false c ((isDigitCh_iff c).mp hc).1]
      simp]
  have hrun : parse_rfc2822Run (a :: b :: c :: d :: '-' :: rest) = none := by
    unfold parse_rfc2822Run
    rw [hw, Option.some_bind, hday, Option.some_bind, hm]
    rfl
  unfold rfc2822Strategy
  rw [hrun]

/-! ## C7 machinery: the RFC 3339 parser inverts the printer field by field -/

theorem rfc3339Num_year_pad (Y : Nat) (hY : Y ≤ 9999) (rest : List Char) :
    rfc3339Num 4 4 Parsed.setYear (({} : Parsed), padZ 4 Y ++ rest) =
      some ({ year := some (Y : Int) }, rest) := by
  unfold rfc3339Num
  dsimp only
  have hpow : (10 : Nat) ^ 4 = 10000 := by norm_num
  rw [scanNumber_padZ 4 Y rest (by omega) (by omega) (by omega)]
  simp only []
  rw [show Parsed.setYear {} ((Y : Nat) : Int) = some { year := some ((Y : Nat) : Int) } from by
    unfold Parsed.setYear
    rw [if_neg (by omega)]]
  rfl

theorem rfc3339Num_month_pad (y : Option Int) (m : Nat) (hm : m ≤ 99)
    (rest : List Char) :
    rfc3339Num 2 2 Parsed.setMonth (({ year := y } : Parsed), padZ 2 m ++ rest) =
      some (({ year := y, month := some m } : Parsed), rest) := by
  unfold rfc3339Num
  dsimp only
  have hpow : (10 : Nat) ^ 2 = 100 := by norm_num
  rw [scanNumber_padZ 2 m rest (by omega) (by omega) (by omega)]
  simp only []
  unfold Parsed.setMonth mergeField
  rw [if_neg (by omega)]
  simp only [Option.map_some']
  rw [Int.toNat_natCast]

theorem rfc3339Num_day_pad (y : Option Int) (mo : Option Nat) (d : Nat) (hd : d ≤ 99)
    (rest : List Char) :
    rfc3339Num 2 2 Parsed.setDay (({ year := y, month := mo } : Parsed), padZ 2 d ++ rest) =
      some (({ year := y, month := mo, day := some d } : Parsed), rest) := by
  unfold rfc3339Num
  dsimp only
  have hpow : (10 : Nat) ^ 2 = 100 := by norm_num
  rw [scanNumber_padZ 2 d rest (by omega) (by omega) (by omega)]
  simp only []
  unfold Parsed.setDay mergeField
  rw [if_neg (by omega)]
  simp only [Option.map_some']
  rw [Int.toNat_natCast]

theorem rfc3339Num_hour_pad (y : Option Int) (mo dy : Option Nat) (h : Nat) (hh : h ≤ 99)
    (rest : List Char) :
    rfc3339Num 2 2 Parsed.setHour
        (({ year := y, month := mo, day := dy } : Parsed), padZ 2 h ++ rest) =
      some (({ year := y, month := mo, day := dy, hourDiv12 := some (h / 12), hourMod12 := some (h % 12) } : Parsed), rest) := by
  unfold rfc3339Num
  dsimp only
  have hpow : (10 : Nat) ^ 2 = 100 := by norm_num
  rw [scanNumber_padZ 2 h rest (by omega) (by omega) (by omega)]
  simp only []
  unfold Parsed.setHour mergeField
  rw [if_neg (by omega)]
  simp only [Option.map_some']
  rw [Int.toNat_natCast]

theorem rfc3339Num_minute_pad (y : Option Int) (mo dy hd12 hm12 : Option Nat) (mi : Nat)
    (hmi : mi ≤ 99) (rest : List Char) :
    rfc3339Num 2 2 Parsed.setMinute
        (({ year := y, month := mo, day := dy, hourDiv12 := hd12, hourMod12 := hm12 } : Parsed), padZ 2 mi ++ rest) =
      some (({ year := y, month := mo, day := dy, hourDiv12 := hd12, hourMod12 := hm12, minute := some mi } : Parsed), rest) := by
  unfold rfc3339Num
  dsimp only
  have hpow : (10 : Nat) ^ 2 = 100 := by norm_num
  rw [scanNumber_padZ 2 mi rest (by omega) (by omega) (by omega)]
  simp only []
  unfold Parsed.setMinute mergeField
  rw [if_neg (by omega)]
  simp only [Option.map_some']
  rw [Int.toNat_natCast]

theorem rfc3339Num_second_pad (y : Option Int) (mo dy hd12 hm12 miv : Option Nat) (s1 : Nat)
    (hs1 : s1 ≤ 99) (rest : List Char) :
    rfc3339Num 2 2 Parsed.setSecond
        (({ year := y, month := mo, day := dy, hourDiv12 := hd12, hourMod12 := hm12, minute := miv } : Parsed), padZ 2 s1 ++ rest) =
      some (({ year := y, month := mo, day := dy, hourDiv12 := hd12, hourMod12 := hm12, minute := miv, second := some s1 } : Parsed), rest) := by
  unfold rfc3339Num
  dsimp only
  have hpow : (10 : Nat) ^ 2 = 100 := by norm_num
  rw [scanNumber_padZ 2 s1 rest (by omega) (by omega) (by omega)]
  simp only []
  unfold Parsed.setSecond mergeField
  rw [if_neg (by omega)]
  simp only [Option.map_some']
  rw [Int.toNat_natCast]

theorem rfc3339Sep_T (p : Parsed) (rest : List Char) :
    rfc3339Sep (p, 'T' :: rest) = some (p, rest) := rfl

/-- The printed fraction block (3, 6 or 9 digits) rescans to exactly the
printed nanosecond value. -/
theorem rfc3339Frac_pad (y : Option Int) (mo dy hd12 hm12 miv sec : Option Nat) (f : Nat)
    (h0 : f ≠ 0) (hf : f < 1000000000) (c : Char) (hc : isDigitCh c = false)
    (rest : List Char) :
    rfc3339Frac
        (({ year := y, month := mo, day := dy, hourDiv12 := hd12, hourMod12 := hm12, minute := miv, second := sec } : Parsed), fracDigitsRfc f ++ c :: rest) =
      some (({ year := y, month := mo, day := dy, hourDiv12 := hd12, hourMod12 := hm12, minute := miv, second := sec, nanosecond := some f } : Parsed), c :: rest) := by
  unfold fracDigitsRfc
  rw [if_neg h0]
  by_cases h6 : f % 1000000 = 0
  · rw [if_pos h6]
    rw [List.cons_append]
    unfold rfc3339Frac
    simp only []
    have hpow : (10 : Nat) ^ 3 = 1000 := by norm_num
    rw [scanNanosecond_padZ 3 (f / 1000000) c rest (by omega) (by omega) (by omega) hc]
    have he : f / 1000000 * 10 ^ (9 - 3) = f := by
      have hp6 : (10 : Nat) ^ (9 - 3) = 1000000 := by norm_num
      rw [hp6]
      omega
    rw [he]
    unfold Parsed.setNanosecond mergeField
    simp only []
    rw [if_neg (by omega)]
    simp only [Option.map_some']
    rw [Int.toNat_natCast]
  · rw [if_neg h6]
    by_cases h3 : f % 1000 = 0
    · rw [if_pos h3]
      rw [List.cons_append]
      unfold rfc3339Frac
      simp only []
      have hpow : (10 : Nat) ^ 6 = 1000000 := by norm_num
      rw [scanNanosecond_padZ 6 (f / 1000) c rest (by omega) (by omega) (by omega) hc]
      have he : f / 1000 * 10 ^ (9 - 6) = f := by
        have hp3 : (10 : Nat) ^ (9 - 6) = 1000 := by norm_num
        rw [hp3]
        omega
      rw [he]
      unfold Parsed.setNanosecond mergeField
      simp only []
      rw [if_neg (by omega)]
      simp only [Option.map_some']
      rw [Int.toNat_natCast]
    · rw [if_neg h3]
      rw [List.cons_append]
      unfold rfc3339Frac
      simp only []
      have hpow : (10 : Nat) ^ 9 = 1000000000 := by norm_num
      rw [scanNanosecond_padZ 9 f c rest (by omega) (by omega) (by omega) hc]
      have he : f * 10 ^ (9 - 9) = f := by
        have hp0 : (10 : Nat) ^ (9 - 9) = 1 := by norm_num
        rw [hp0]
        omega
      rw [he]
      unfold Parsed.setNanosecond mergeField
      simp only []
      rw [if_neg (by omega)]
      simp only [Option.map_some']
      rw [Int.toNat_natCast]

theorem rfc3339Off_zulu (y : Option Int) (mo dy hd12 hm12 miv sec nano : Option Nat) :
    rfc3339Off
        (({ year := y, month := mo, day := dy, hourDiv12 := hd12, hourMod12 := hm12, minute := miv, second := sec, nanosecond := nano } : Parsed), '+' :: "00:00".data) =
      some (({ year := y, month := mo, day := dy, hourDiv12 := hd12, hourMod12 := hm12, minute := miv, second := sec, nanosecond := nano, offset := some 0 } : Parsed), []) := by
  unfold rfc3339Off
  rw [show tzOffsetZulu ('+' :: "00:00".data) = some (0, []) from rfl]
  simp only []
  rw [if_neg (by norm_num)]
  unfold Parsed.setOffset
  rw [if_neg (by norm_num)]
  simp only [Option.map_some']

/-- The RFC 3339 parser inverts the printer on a rendering whose year has
four digits: every printed field is read back exactly and the whole input
is consumed. -/
theorem parse_rfc3339Run_formatted (Y m d h mi s1 f : Nat)
    (hY : Y ≤ 9999) (hm : m ≤ 12) (hd : d ≤ 31)
    (hh : h ≤ 23) (hmi : mi ≤ 59) (hs1 : s1 ≤ 60) (hf : f < 1000000000) :
    parse_rfc3339Run (padZ 4 Y ++ '-' :: (padZ 2 m ++ '-' :: (padZ 2 d ++ 'T' :: (padZ 2 h
        ++ ':' :: (padZ 2 mi ++ ':' :: (padZ 2 s1 ++ (fracDigitsRfc f ++ "+00:00".data))))))) =
      some (({ year := some (Y : Int), month := some m, day := some d, hourDiv12 := some (h / 12), hourMod12 := some (h % 12), minute := some mi, second := some s1, nanosecond := if f = 0 then none else some f, offset := some 0 } : Parsed), []) := by
  have hplus : ("+00:00".data : List Char) = '+' :: "00:00".data := rfl
  unfold parse_rfc3339Run
  rw [rfc3339Num_year_pad Y hY _]
  rw [Option.some_bind, rfc3339Lit_cons]
  rw [Option.some_bind, rfc3339Num_month_pad _ m (by omega) _]
  rw [Option.some_bind, rfc3339Lit_cons]
  rw [Option.some_bind, rfc3339Num_day_pad _ _ d (by omega) _]
  rw [Option.some_bind, rfc3339Sep_T]
  rw [Option.some_bind, rfc3339Num_hour_pad _ _ _ h (by omega) _]
  rw [Option.some_bind, rfc3339Lit_cons]
  rw [Option.some_bind, rfc3339Num_minute_pad _ _ _ _ _ mi (by omega) _]
  rw [Option.some_bind, rfc3339Lit_cons]
  rw [Option.some_bind, rfc3339Num_second_pad _ _ _ _ _ _ s1 (by omega) _]
  rw [Option.some_bind]
  by_cases h0 : f = 0
  · subst h0
    rw [show fracDigitsRfc 0 = [] from rfl, List.nil_append]
    rw [show rfc3339Frac (({ year := some (Y : Int), month := some m, day := some d, hourDiv12 := some (h / 12), hourMod12 := some (h % 12), minute := some mi, second := some s1 } : Parsed), "+00:00".data) = some (({ year := some (Y : Int), month := some m, day := some d, hourDiv12 := some (h / 12), hourMod12 := some (h % 12), minute := some mi, second := some s1 } : Parsed), "+00:00".data) from rfl]
    rw [Option.some_bind]
    rw [hplus]
    rw [rfc3339Off_zulu _ _ _ _ _ _ _ _]
    rw [if_pos rfl]
  · rw [hplus]
    rw [rfc3339Frac_pad _ _ _ _ _ _ _ f h0 hf '+' (by decide) _]
    rw [Option.some_bind]
    rw [rfc3339Off_zulu _ _ _ _ _ _ _ _]
    rw [if_neg h0]

/-! ## C7 machinery: the RFC 3339 strategy on a printed instant -/

set_option maxHeartbeats 1000000 in
/-- On the rendering of a year-0-to-9999 instant, the RFC 3339 strategy
succeeds and rebuilds the instant from the printed calendar fields (with a
printed leap second stored back as second 59 plus 10^9 nanoseconds). -/
theorem rfc3339Strategy_formatted (era : Int) (y0 ord HH MI S1 F : Nat)
    (hera0 : 0 ≤ era) (hera24 : era ≤ 24) (hy399 : y0 ≤ 399) (hord1 : 1 ≤ ord)
    (hord2 : ord ≤ 365 + (if isLeapYear (era * 400 + (y0 : Int)) = true then 1 else 0))
    (hH : HH ≤ 23) (hMI : MI ≤ 59) (hS1 : S1 ≤ 60) (hF : F < 1000000000) :
    rfc3339Strategy (padZ 4 (era * 400 + (y0 : Int)).toNat ++ '-' ::
        (padZ 2 (ordToMd (isLeapYear (era * 400 + (y0 : Int))) ord).1 ++ '-' ::
        (padZ 2 (ordToMd (isLeapYear (era * 400 + (y0 : Int))) ord).2 ++ 'T' ::
        (padZ 2 HH ++ ':' :: (padZ 2 MI ++ ':' ::
        (padZ 2 S1 ++ (fracDigitsRfc F ++ "+00:00".data))))))) =
      .ok ⟨naiveSecs (era * 400 + (y0 : Int)) ord
            (HH * 3600 + MI * 60 + (if S1 = 60 then 59 else S1)),
          (if S1 = 60 then F + 1000000000 else F)⟩ := by
  have hYcast : (((era * 400 + (y0 : Int)).toNat : Nat) : Int) = era * 400 + (y0 : Int) :=
    Int.toNat_of_nonneg (by omega)
  have hYle : (era * 400 + (y0 : Int)).toNat ≤ 9999 := by omega
  have hord366 : ord ≤ 366 := by
    by_cases hlp : isLeapYear (era * 400 + (y0 : Int)) = true
    · rw [if_pos hlp] at hord2
      omega
    · rw [if_neg hlp] at hord2
      omega
  obtain ⟨hm1, hm12, hd1, hd31, hdlen, hmdord⟩ :=
    ordToMd_spec (isLeapYear (era * 400 + (y0 : Int))) ord (by omega) hord1 hord2
  have hrun := parse_rfc3339Run_formatted (era * 400 + (y0 : Int)).toNat
    (ordToMd (isLeapYear (era * 400 + (y0 : Int))) ord).1
    (ordToMd (isLeapYear (era * 400 + (y0 : Int))) ord).2 HH MI S1 F
    hYle hm12 hd31 hH hMI hS1 hF
  have hS2v : (if S1 = 60 then 59 else S1) ≤ 59 := by
    by_cases h : S1 = 60
    · rw [if_pos h]
    · rw [if_neg h]
      omega
  have hF2v : (if S1 = 60 then F + 1000000000 else F) < 2000000000 := by
    by_cases h : S1 = 60
    · rw [if_pos h]
      omega
    · rw [if_neg h]
      omega
  have hdate : Parsed.toNaiveDate ({ year := some ((((era * 400 + (y0 : Int)).toNat : Nat)) : Int), month := some (ordToMd (isLeapYear (era * 400 + (y0 : Int))) ord).1, day := some (ordToMd (isLeapYear (era * 400 + (y0 : Int))) ord).2, hourDiv12 := some (HH / 12), hourMod12 := some (HH % 12), minute := some MI, second := some S1, nanosecond := if F = 0 then none else some F, offset := some 0 } : Parsed) =
      some (era * 400 + (y0 : Int), ord) := by
    unfold Parsed.toNaiveDate
    simp only []
    rw [hYcast]
    rw [if_neg (by omega), if_neg (by omega), if_neg (by omega)]
    rw [hmdord]
  have htime : Parsed.toNaiveTime ({ year := some ((((era * 400 + (y0 : Int)).toNat : Nat)) : Int), month := some (ordToMd (isLeapYear (era * 400 + (y0 : Int))) ord).1, day := some (ordToMd (isLeapYear (era * 400 + (y0 : Int))) ord).2, hourDiv12 := some (HH / 12), hourMod12 := some (HH % 12), minute := some MI, second := some S1, nanosecond := if F = 0 then none else some F, offset := some 0 } : Parsed) =
      some (HH * 3600 + MI * 60 + (if S1 = 60 then 59 else S1),
        (if S1 = 60 then F + 1000000000 else F)) := by
    unfold Parsed.toNaiveTime
    simp only []
    rw [show (if F = 0 then (none : Option Nat) else some F).getD 0 = F from by
      by_cases hF0 : F = 0
      · rw [if_pos hF0, hF0]
        rfl
      · rw [if_neg hF0]
        rfl]
    rw [show HH / 12 * 12 + HH % 12 = HH from by omega]
    by_cases hS60 : S1 = 60
    · rw [if_pos hS60, if_pos hS60, if_pos hS60]
      simp only []
      rw [if_pos (by refine ⟨by omega, by omega, by omega, by omega⟩)]
    · rw [if_neg hS60, if_neg hS60, if_neg hS60]
      simp only []
      rw [if_pos (by refine ⟨by omega, by omega, by omega, by omega⟩)]
  unfold rfc3339Strategy
  rw [hrun]
  simp only []
  unfold Parsed.toDatetimeUtc
  rw [hdate, htime]
  simp only []
  rw [if_neg (by norm_num)]
  have hD := daysFromCE_decomp era y0 ord hera0 hy399 hord1
  have hdel := yearDeltas_le y0 (by omega)
  have hfd2 : (naiveSecs (era * 400 + (y0 : Int)) ord
        (HH * 3600 + MI * 60 + (if S1 = 60 then 59 else S1)) - 0).fdiv 86400 =
      (naiveSecs (era * 400 + (y0 : Int)) ord
        (HH * 3600 + MI * 60 + (if S1 = 60 then 59 else S1)) - 0) / 86400 :=
    Int.fdiv_eq_ediv _ (by norm_num)
  rw [hfd2]
  rw [if_pos (by
    apply fromNumDays_isSome_of
    · unfold naiveSecs
      omega
    · unfold naiveSecs
      omega)]
  rw [show naiveSecs (era * 400 + (y0 : Int)) ord
      (HH * 3600 + MI * 60 + (if S1 = 60 then 59 else S1)) - 0 =
    naiveSecs (era * 400 + (y0 : Int)) ord
      (HH * 3600 + MI * 60 + (if S1 = 60 then 59 else S1)) from by ring]

/-! ## C7: the RFC 3339 round-trip -/

set_option maxHeartbeats 1000000 in
/-- C7 (amended): for every instant with nanoseconds below 2*10^9 and epoch
seconds in [-62167219200, 253402300800) — the instants whose proleptic
Gregorian year is 0 through 9999 — formatting it as RFC 3339 and resolving
the rendering again succeeds via the RFC 3339 strategy (the six strategies
before it all fail on the rendering) and yields an instant equal to the
original to millisecond precision. -/
theorem C7_roundtrip (dt : DT) (hn : dt.nsecs < 2000000000)
    (h1 : -62167219200 ≤ dt.secs) (h2 : dt.secs < 253402300800) :
    ∃ dt2 : DT, rfc3339Strategy (toRfc3339 dt) = .ok dt2 ∧
      parse (toRfc3339 dt) = .ok dt2 ∧
      DT.timestampMillis dt2 = DT.timestampMillis dt := by
  have hfd : dt.secs.fdiv 86400 = dt.secs / 86400 := Int.fdiv_eq_ediv _ (by norm_num)
  have hfm : dt.secs.fmod 86400 = dt.secs % 86400 := Int.fmod_eq_emod _ (by norm_num)
  obtain ⟨era, y0, ord, hfnd, hera0, hera24, hy399, hord1, hordle, hdce⟩ :=
    fromNumDays_spec (dt.secs / 86400 + 719163) (by omega) (by omega)
  have hleapd := yearDeltas_leap y0 (by omega)
  have hord2 : ord ≤ 365 + (if isLeapYear (era * 400 + (y0 : Int)) = true then 1 else 0) := by
    rw [isLeapYear_mod400]
    by_cases hlp : isLeapYear ((y0 : Nat) : Int) = true
    · rw [if_pos hlp]
      rw [if_pos hlp] at hleapd
      omega
    · rw [if_neg hlp]
      rw [if_neg hlp] at hleapd
      omega
  have hpow4 : (10 : Nat) ^ 4 = 10000 := by norm_num
  obtain ⟨hdsall, hdsnat, hdslen⟩ :=
    padZ_spec 4 (era * 400 + (y0 : Int)).toNat (by omega) (by omega) (by omega)
  have hdsne : padZ 4 (era * 400 + (y0 : Int)).toNat ≠ [] := by
    intro hnil
    rw [hnil] at hdslen
    simp at hdslen
  have hf1 : ∀ r, parse_dt_str fmtY (padZ 4 (era * 400 + (y0 : Int)).toNat ++ '-' :: r) = none :=
    fun r => parse_dt_str_fmtY_padded _ r hdsall hdsne (by omega)
  have hf2 : ∀ r, parse_dt_str fmtYm (padZ 4 (era * 400 + (y0 : Int)).toNat ++ '-' :: r) = none :=
    fun r => parse_dt_str_yearMonth_padded [] _ r hdsall hdsne (by omega)
  have hf3 : ∀ r, parse_dt_str fmtYmd (padZ 4 (era * 400 + (y0 : Int)).toNat ++ '-' :: r) = none :=
    fun r => parse_dt_str_yearMonth_padded [.day] _ r hdsall hdsne (by omega)
  have hf4 : ∀ r, parse_dt_str fmtYmdH (padZ 4 (era * 400 + (y0 : Int)).toNat ++ '-' :: r) = none :=
    fun r => parse_dt_str_yearMonth_padded [.day, .hour] _ r hdsall hdsne (by omega)
  have hf5 : ∀ r, parse_dt_str fmtYmdHM (padZ 4 (era * 400 + (y0 : Int)).toNat ++ '-' :: r) = none :=
    fun r => parse_dt_str_yearMonth_padded [.day, .hour, .minute] _ r hdsall hdsne (by omega)
  have hf6 : ∀ r, rfc2822Strategy (padZ 4 (era * 400 + (y0 : Int)).toNat ++ '-' :: r) = .fail :=
    fun r => rfc2822_fail_fourDigits _ r hdsall hdslen
  by_cases hns : dt.nsecs ≥ 1000000000
  · have hfmt : toRfc3339 dt = padZ 4 (era * 400 + (y0 : Int)).toNat ++ '-' ::
        (padZ 2 (ordToMd (isLeapYear (era * 400 + (y0 : Int))) ord).1 ++ '-' ::
        (padZ 2 (ordToMd (isLeapYear (era * 400 + (y0 : Int))) ord).2 ++ 'T' ::
        (padZ 2 ((dt.secs % 86400).toNat / 3600) ++ ':' ::
        (padZ 2 ((dt.secs % 86400).toNat % 3600 / 60) ++ ':' ::
        (padZ 2 ((dt.secs % 86400).toNat % 60 + 1)
          ++ (fracDigitsRfc (dt.nsecs - 1000000000) ++ "+00:00".data)))))) := by
      unfold toRfc3339
      simp only []
      rw [hfd, hfm, hfnd]
      simp only [Option.getD_some]
      rw [if_pos (by refine ⟨by omega, by omega⟩)]
      rw [if_pos hns]
      simp only [List.append_assoc, List.cons_append]
    have hstrat := rfc3339Strategy_formatted era y0 ord
      ((dt.secs % 86400).toNat / 3600) ((dt.secs % 86400).toNat % 3600 / 60)
      ((dt.secs % 86400).toNat % 60 + 1) (dt.nsecs - 1000000000)
      hera0 hera24 hy399 hord1 hord2 (by omega) (by omega) (by omega) (by omega)
    refine ⟨⟨naiveSecs (era * 400 + (y0 : Int)) ord ((dt.secs % 86400).toNat / 3600 * 3600 + (dt.secs % 86400).toNat % 3600 / 60 * 60 + (if (dt.secs % 86400).toNat % 60 + 1 = 60 then 59 else (dt.secs % 86400).toNat % 60 + 1)), (if (dt.secs % 86400).toNat % 60 + 1 = 60 then dt.nsecs - 1000000000 + 1000000000 else dt.nsecs - 1000000000)⟩, ?_, ?_, ?_⟩
    · rw [hfmt]
      exact hstrat
    · rw [hfmt]
      unfold parse strategies
      rw [runStrategies_cons_fail _ _ _ (by unfold liftOpt; rw [hf1 _]),
        runStrategies_cons_fail _ _ _ (by unfold liftOpt; rw [hf2 _]),
        runStrategies_cons_fail _ _ _ (by unfold liftOpt; rw [hf3 _]),
        runStrategies_cons_fail _ _ _ (by unfold liftOpt; rw [hf4 _]),
        runStrategies_cons_fail _ _ _ (by unfold liftOpt; rw [hf5 _]),
        runStrategies_cons_fail _ _ _ (hf6 _)]
      unfold runStrategies
      rw [hstrat]
    · unfold DT.timestampMillis
      simp only []
      unfold naiveSecs
      rw [hdce]
      by_cases hS60 : (dt.secs % 86400).toNat % 60 + 1 = 60
      · rw [if_pos hS60, if_pos hS60]
        omega
      · rw [if_neg hS60, if_neg hS60]
        omega
  · have hfmt : toRfc3339 dt = padZ 4 (era * 400 + (y0 : Int)).toNat ++ '-' ::
        (padZ 2 (ordToMd (isLeapYear (era * 400 + (y0 : Int))) ord).1 ++ '-' ::
        (padZ 2 (ordToMd (isLeapYear (era * 400 + (y0 : Int))) ord).2 ++ 'T' ::
        (padZ 2 ((dt.secs % 86400).toNat / 3600) ++ ':' ::
        (padZ 2 ((dt.secs % 86400).toNat % 3600 / 60) ++ ':' ::
        (padZ 2 ((dt.secs % 86400).toNat % 60)
          ++ (fracDigitsRfc dt.nsecs ++ "+00:00".data)))))) := by
      unfold toRfc3339
      simp only []
      rw [hfd, hfm, hfnd]
      simp only [Option.getD_some]
      rw [if_pos (by refine ⟨by omega, by omega⟩)]
      rw [if_neg hns]
      simp only [List.append_assoc, List.cons_append]
    have hstrat := rfc3339Strategy_formatted era y0 ord
      ((dt.secs % 86400).toNat / 3600) ((dt.secs % 86400).toNat % 3600 / 60)
      ((dt.secs % 86400).toNat % 60) dt.nsecs
      hera0 hera24 hy399 hord1 hord2 (by omega) (by omega) (by omega) (by omega)
    refine ⟨⟨naiveSecs (era * 400 + (y0 : Int)) ord ((dt.secs % 86400).toNat / 3600 * 3600 + (dt.secs % 86400).toNat % 3600 / 60 * 60 + (if (dt.secs % 86400).toNat % 60 = 60 then 59 else (dt.secs % 86400).toNat % 60)), (if (dt.secs % 86400).toNat % 60 = 60 then dt.nsecs + 1000000000 else dt.nsecs)⟩, ?_, ?_, ?_⟩
    · rw [hfmt]
      exact hstrat
    · rw [hfmt]
      unfold parse strategies
      rw [runStrategies_cons_fail _ _ _ (by unfold liftOpt; rw [hf1 _]),
        runStrategies_cons_fail _ _ _ (by unfold liftOpt; rw [hf2 _]),
        runStrategies_cons_fail _ _ _ (by unfold liftOpt; rw [hf3 _]),
        runStrategies_cons_fail _ _ _ (by unfold liftOpt; rw [hf4 _]),
        runStrategies_cons_fail _ _ _ (by unfold liftOpt; rw [hf5 _]),
        runStrategies_cons_fail _ _ _ (hf6 _)]
      unfold runStrategies
      rw [hstrat]
    · unfold DT.timestampMillis
      simp only []
      unfold naiveSecs
      rw [hdce]
      by_cases hS60 : (dt.secs % 86400).toNat % 60 = 60
      · rw [if_pos hS60, if_pos hS60]
        omega
      · rw [if_neg hS60, if_neg hS60]
        omega

theorem C7_roundtrip_witness :
    (⟨1688000000, 500000000⟩ : DT).nsecs < 2000000000 ∧
    (-62167219200 : Int) ≤ (⟨1688000000, 500000000⟩ : DT).secs ∧
    (⟨1688000000, 500000000⟩ : DT).secs < 253402300800 ∧
    (∃ dt2 : DT, rfc3339Strategy (toRfc3339 ⟨1688000000, 500000000⟩) = .ok dt2 ∧
      parse (toRfc3339 ⟨1688000000, 500000000⟩) = .ok dt2 ∧
      DT.timestampMillis dt2 = DT.timestampMillis ⟨1688000000, 500000000⟩) :=
  ⟨by decide, by decide, by decide,
    C7_roundtrip ⟨1688000000, 500000000⟩ (by decide) (by decide) (by decide)⟩

/-- C7 counterexample: a successful resolve can produce an instant of year
10000 (the decimal string "253402300800000" is resolved by the
out-of-range-milliseconds branch of the integer strategy); its RFC 3339
rendering then carries a signed five-digit year, which no strategy — the
RFC 3339 strategy requires exactly four year digits — parses back, so
re-resolving the rendering fails instead of returning the instant. -/
theorem C7_counterexample :
    parseStr "253402300800000" = .ok ⟨253402300800, 0⟩ ∧
    toRfc3339 ⟨253402300800, 0⟩ = "+10000-01-01T00:00:00+00:00".data ∧
    parseStr "+10000-01-01T00:00:00+00:00" = .fail :=
  ⟨by decide, by decide, by decide⟩

/-! ## C8: the failure path of main -/

/-- C8 (amended): when every strategy fails, `main` writes the error line
naming the unparsed input and the usage line to the error stream and writes
none of the timestamp report to standard output — but it returns normally
from `main`, so the process exit code is 0, not non-zero. -/
theorem C8_failure_path (s : List Char) (now : DT) (h : parse s = .fail) :
    mainRun (some s) now = ⟨[], [.errParse s, .usage], 0⟩ := by
  simp [mainRun, h]

theorem C8_failure_path_witness :
    parse "not-a-date".data = .fail ∧
    mainRun (some "not-a-date".data) ⟨1700000000, 0⟩ =
      ⟨[], [.errParse "not-a-date".data, .usage], 0⟩ :=
  ⟨by decide, C8_failure_path "not-a-date".data ⟨1700000000, 0⟩ (by decide)⟩

/-- C8 counterexample: on the unparseable inputs "not-a-date" and "" the
program does write the error and usage lines to stderr and nothing to
stdout, but its exit code is 0 — refuting the claimed non-zero exit code. -/
theorem C8_counterexample :
    parse "not-a-date".data = .fail ∧
    mainRun (some "not-a-date".data) ⟨1700000000, 0⟩ =
      ⟨[], [.errParse "not-a-date".data, .usage], 0⟩ ∧
    (mainRun (some "not-a-date".data) ⟨1700000000, 0⟩).exitCode = 0 ∧
    (mainRun (some [] ) ⟨1700000000, 0⟩).exitCode = 0 := by decide

/-! ## C9: the relative-delta display rule -/

/-- C9: for a resolved instant `t` and clock instant `now`: when `t < now`
the since-block shows the seconds line always and the hours/days lines
exactly when their truncated values are positive, and no until-lines; when
`t > now`, symmetrically; when they are equal, neither block appears.  The
block sits between the epoch lines and the format lines of the report. -/
theorem C9_delta_display (t now : DT) :
    (t < now →
      (OutLine.secondsSince (durSeconds now t) ∈ deltaBlock t now ∧
       (∀ v : Int, OutLine.hoursSince v ∈ deltaBlock t now ↔
         (v = (durSeconds now t).tdiv 3600 ∧ 0 < v)) ∧
       (∀ v : Int, OutLine.daysSince v ∈ deltaBlock t now ↔
         (v = (durSeconds now t).tdiv 86400 ∧ 0 < v)) ∧
       (∀ v : Int, OutLine.secondsUntil v ∉ deltaBlock t now ∧
         OutLine.hoursUntil v ∉ deltaBlock t now ∧ OutLine.daysUntil v ∉ deltaBlock t now))) ∧
    (now < t →
      (OutLine.secondsUntil (durSeconds t now) ∈ deltaBlock t now ∧
       (∀ v : Int, OutLine.hoursUntil v ∈ deltaBlock t now ↔
         (v = (durSeconds t now).tdiv 3600 ∧ 0 < v)) ∧
       (∀ v : Int, OutLine.daysUntil v ∈ deltaBlock t now ↔
         (v = (durSeconds t now).tdiv 86400 ∧ 0 < v)) ∧
       (∀ v : Int, OutLine.secondsSince v ∉ deltaBlock t now ∧
         OutLine.hoursSince v ∉ deltaBlock t now ∧ OutLine.daysSince v ∉ deltaBlock t now))) ∧
    (t = now → deltaBlock t now = []) ∧
    (∀ s : List Char, parse s = .ok t →
      (mainRun (some s) now).stdout =
        [OutLine.unixTime t.secs, OutLine.unixFloat t.timestampMillis,
         OutLine.unixMs t.timestampMillis, OutLine.blank]
        ++ deltaBlock t now
        ++ [OutLine.rfc2822Utc t, OutLine.rfc3339Utc (toRfc3339 t),
            OutLine.ymdUtc t, OutLine.ymdhUtc t, OutLine.blank,
            OutLine.rfc2822Local t, OutLine.rfc3339Local t]) := by
  refine ⟨?_, ?_, ?_, ?_⟩
  · intro h
    unfold deltaBlock
    rw [if_pos h]
    refine ⟨by simp, fun v => ?_, fun v => ?_, fun v => ?_⟩ <;>
      by_cases h1 : (durSeconds now t).tdiv 3600 > 0 <;>
      by_cases h2 : (durSeconds now t).tdiv 86400 > 0 <;>
      simp [h1, h2] <;> omega
  · intro h
    have hnot : ¬ t < now := by rw [dtLt_def] at h ⊢; omega
    unfold deltaBlock
    rw [if_neg hnot, if_pos h]
    refine ⟨by simp, fun v => ?_, fun v => ?_, fun v => ?_⟩ <;>
      by_cases h1 : (durSeconds t now).tdiv 3600 > 0 <;>
      by_cases h2 : (durSeconds t now).tdiv 86400 > 0 <;>
      simp [h1, h2] <;> omega
  · intro h
    subst h
    have h1 : ¬ t < t := dtLt_irrefl t
    unfold deltaBlock
    rw [if_neg h1, if_neg h1]
  · intro s hs
    simp [mainRun, hs, reportLines]

/-! ## C5: field defaulting in the calendar strategies -/

/-- C5: absent fields in the calendar strategies default as hour to 0,
minute to 0, day to 1, month to 1 (the year is never touched), the result
is read as UTC: resolving any 4-digit year string Y with an in-range
instant (1901-2499) yields Y-01-01T00:00:00Z, "202307" yields
2023-07-01T00:00:00Z and "20230715" yields 2023-07-15T00:00:00Z. -/
theorem C5_field_defaulting :
    (∀ Y : Int, 1901 ≤ Y → Y ≤ 2499 →
      parse (decString Y) = .ok (utcInstant Y 1 1 0 0 0)) ∧
    parseStr "202307" = .ok (utcInstant 2023 7 1 0 0 0) ∧
    parseStr "20230715" = .ok (utcInstant 2023 7 15 0 0 0) ∧
    (∀ p : Parsed,
      (applyDefaults p).year = p.year ∧
      (applyDefaults p).month = some (p.month.getD 1) ∧
      (applyDefaults p).day = some (p.day.getD 1) ∧
      (applyDefaults p).minute = some (p.minute.getD 0) ∧
      (applyDefaults p).hourMod12 = some (p.hourMod12.getD 0)) := by
  refine ⟨?_, by decide, by decide, ?_⟩
  · intro Y hy1 hy2
    unfold parse runStrategies strategies
    simp only [liftOpt, parse_dt_str_year Y hy1 hy2]
  · intro p
    unfold applyDefaults
    cases hm : p.hourMod12 <;> cases hmi : p.minute <;> cases hd : p.day <;>
      cases hmo : p.month <;> simp [hm, hmi, hd, hmo]

theorem C5_field_defaulting_witness :
    1901 ≤ (2023 : Int) ∧ (2023 : Int) ≤ 2499 ∧
    parse (decString 2023) = .ok (utcInstant 2023 1 1 0 0 0) :=
  ⟨by decide, by decide, C5_field_defaulting.1 2023 (by decide) (by decide)⟩


/-! ## C2 counterexample: a 4-digit integer is captured by the year strategy -/

/-- C2 counterexample: 2000 lies strictly between the bounds, but resolving
its decimal string yields the instant 2000-01-01T00:00:00Z (the year
strategy fires first), not the instant 2000 seconds past the epoch. -/
theorem C2_counterexample :
    decString 2000 = "2000".data ∧
    LOWER_BOUND < (2000 : Int) ∧ (2000 : Int) < UPPER_BOUND ∧
    parse (decString 2000) = .ok (utcInstant 2000 1 1 0 0 0) ∧
    utcInstant 2000 1 1 0 0 0 ≠ ⟨2000, 0⟩ := by decide

/-! ## C3: the out-of-range integer branch loses the millisecond remainder -/

/-- C3 (code bug exhibit): for m = 16725225600500 (≥ UPPER_BOUND) the code
returns the instant 16725225600 s + 500 ns — `(m % 1000) as u32` is passed
to a nanosecond argument — so its epoch milliseconds are 16725225600000,
not m; and for m = -2208988800 (≤ LOWER_BOUND) the negative remainder makes
the construction panic instead of returning an instant. -/
theorem C3_failing_input_eval :
    decString 16725225600500 = "16725225600500".data ∧
    UPPER_BOUND ≤ (16725225600500 : Int) ∧
    parse (decString 16725225600500) = .ok ⟨16725225600, 500⟩ ∧
    DT.timestampMillis ⟨16725225600, 500⟩ = 16725225600000 ∧
    (16725225600000 : Int) ≠ 16725225600500 ∧
    parse (decString (-2208988800)) = .crash := by decide

/-! ## C4: the float strategy also loses the subsecond part -/

/-- C4 (code bug exhibit): "1688000000.5" is in range, so the code computes
round(1688000000.5 * 1000) = 1688000000500 milliseconds — but then passes
`ts % 1000 = 500` to a nanosecond argument, producing the instant
1688000000 s + 500 ns whose epoch milliseconds are 1688000000000, not the
claimed 1688000000500. -/
theorem C4_failing_input_eval :
    parseStr "1688000000.5" = .ok ⟨1688000000, 500⟩ ∧
    DT.timestampMillis ⟨1688000000, 500⟩ = 1688000000000 ∧
    (1688000000000 : Int) ≠ 1688000000500 := by decide

/-! ## C10: the negative-remainder cast makes the construction panic -/

theorem tmod_neg_range (a b : Int) (ha : a ≤ 0) (hb : 0 < b) :
    -b < a.tmod b ∧ a.tmod b ≤ 0 := by
  have h1 : a.tmod b = -((-a).tmod b) := by
    rw [Int.tmod_def, Int.tmod_def, Int.neg_tdiv]; ring
  have h2 : 0 ≤ (-a).tmod b := Int.tmod_nonneg (a := -a) b (by omega)
  have h3 : (-a).tmod b < b := Int.tmod_lt_of_pos (-a) hb
  omega

/-- C10 counterexample: at ts = -2208988801 (≤ LOWER_BOUND, ts % 1000 =
-801 ≠ 0) the `NaiveDateTime` construction in `parse_i64` panics — the
strategy aborts the process instead of returning a well-defined `Result`. -/
theorem C10_counterexample :
    (-2208988801 : Int) ≤ LOWER_BOUND ∧ Int.tmod (-2208988801) 1000 ≠ 0 ∧
    parse_i64 (decString (-2208988801)) = .crash ∧
    parse (decString (-2208988801)) = .crash := by decide

/-- C10 (amended): for every integer ts ≤ LOWER_BOUND with ts % 1000 ≠ 0,
the cast `(ts % 1000) as u32` produces a value of at least 2*10^9 — not a
valid nanosecond count — and the `NaiveDateTime::from_timestamp` call at
that site panics (aborting the process) rather than returning a `Result`. -/
theorem C10_negative_remainder_panics (ts : Int)
    (h1 : ts ≤ LOWER_BOUND) (h2 : ts.tmod 1000 ≠ 0) :
    2000000000 ≤ toU32 (ts.tmod 1000) ∧ parse_i64_num ts = .crash := by
  rw [LOWER_BOUND_eq] at h1
  have hr := tmod_neg_range ts 1000 (by omega) (by omega)
  have htou : toU32 (ts.tmod 1000) = (ts.tmod 1000 + 4294967296).toNat := by
    unfold toU32
    obtain ⟨hlo, hhi⟩ := hr
    generalize ts.tmod 1000 = r at hlo hhi h2
    congr 1
    rw [show Int.emod r 4294967296 = r % 4294967296 from rfl]
    omega
  have hge : 2000000000 ≤ toU32 (ts.tmod 1000) := by
    rw [htou]; omega
  refine ⟨hge, ?_⟩
  unfold parse_i64_num
  rw [if_neg (by rw [LOWER_BOUND_eq]; omega)]
  unfold from_timestamp_opt liftPanic
  rw [if_neg (by omega)]

theorem C10_negative_remainder_panics_witness :
    (-2208988801 : Int) ≤ LOWER_BOUND ∧ Int.tmod (-2208988801) 1000 ≠ 0 ∧
    (2000000000 ≤ toU32 (Int.tmod (-2208988801) 1000) ∧
      parse_i64_num (-2208988801) = .crash) :=
  ⟨by decide, by decide,
    C10_negative_remainder_panics (-2208988801) (by decide) (by decide)⟩

theorem C9_delta_display_witness :
    OutLine.secondsSince 1000 ∈ deltaBlock ⟨1699999000, 0⟩ ⟨1700000000, 0⟩ ∧
    (OutLine.hoursSince 2 ∈ deltaBlock ⟨1699990000, 0⟩ ⟨1700000000, 0⟩) ∧
    deltaBlock ⟨1700000000, 0⟩ ⟨1700000000, 0⟩ = [] := by
  have h1 := (C9_delta_display ⟨1699999000, 0⟩ ⟨1700000000, 0⟩).1 (by decide)
  have h2 := (C9_delta_display ⟨1699990000, 0⟩ ⟨1700000000, 0⟩).1 (by decide)
  have h3 := (C9_delta_display ⟨1700000000, 0⟩ ⟨1700000000, 0⟩).2.2.1 rfl
  refine ⟨?_, ?_, h3⟩
  · have he : durSeconds ⟨1700000000, 0⟩ ⟨1699999000, 0⟩ = 1000 := by decide
    exact he ▸ h1.1
  · exact (h2.2.1 2).mpr (by decide)

end TimeCli
